import Mathlib

/-!
Verification of the shift-scheduling engine against its specification.

Each Python module relevant to the claims is shallowly embedded as
executable Lean definitions: dictionaries become association lists,
Python floats become rationals, dates become natural numbers counting
days (so that `weekday d = d % 7` and date differences are plain
subtraction), and in-place mutation of dictionary/list objects is made
explicit through a small store of references where a claim is about
aliasing or frame conditions.
-/

set_option maxRecDepth 4000

namespace Sched

/-- Python's stable `list.sort`: `keep y x = true` means `y` may stay in
front of `x`; elements are inserted after all elements they do not have
to precede, which preserves the original order of equal keys. -/
def pyInsert {α : Type} (keep : α → α → Bool) (x : α) : List α → List α
  | [] => [x]
  | y :: ys => if keep y x then y :: pyInsert keep x ys else x :: y :: ys

/-- Stable sort processing elements left to right (models CPython's
stable `sort`, with `keep` encoding the comparison and `reverse` flag). -/
def pySortBy {α : Type} (keep : α → α → Bool) (xs : List α) : List α :=
  xs.foldl (fun acc x => pyInsert keep x acc) []

/-- Python `str(x)` on an optional string: `None` prints as `"None"`. -/
def pyStr : Option String → String
  | none => "None"
  | some s => s

/-- Leading-pattern test on the underlying character lists
(`str.startswith`), written so that it evaluates by kernel reduction. -/
def leadsAux : List Char → List Char → Bool
  | _, [] => true
  | [], _ :: _ => false
  | c :: cs, d :: ds => c = d && leadsAux cs ds

/-- Python `s.startswith(p)`. -/
def strLeadsWith (s p : String) : Bool := leadsAux s.data p.data

/-- Python `enumerate(xs)` starting at index `i`. -/
def enumFrom {α : Type} : Nat → List α → List (Nat × α)
  | _, [] => []
  | i, x :: xs => (i, x) :: enumFrom (i + 1) xs

/-- Python `list.index` returning the first index satisfying `p` (as an
option), counting from `i`. -/
def findIdxFrom {α : Type} (p : α → Bool) : List α → Nat → Option Nat
  | [], _ => none
  | x :: xs, i => if p x then some i else findIdxFrom p xs (i + 1)

end Sched

namespace BalVal

/-- A worker record as consumed by `BalanceValidator`: `id` plus the
optional `target_shifts` field (`dict.get` defaults to 0). -/
structure Worker where
  id : String
  target_shifts : Option Int
deriving Repr, DecidableEq

/-- Reads `worker.get('target_shifts', 0)`. -/
def Worker.targetOf (w : Worker) : Int := w.target_shifts.getD 0

/-- A schedule in the list format: date → list of cells, each cell a
worker id or `None`. -/
def Schedule := List (Nat × List (Option String))

/-- One cell comparison from `_count_worker_shifts`:
`worker == worker_id or worker == f"Worker {worker_id}" or str(worker) == str(worker_id)`. -/
def cellMatches (cell : Option String) (workerId : String) : Bool :=
  cell = some workerId || cell = some ("Worker " ++ workerId) ||
    Sched.pyStr cell = workerId

/-- Embeds `BalanceValidator._count_worker_shifts`: counts, over every date and
every cell, the cells matching the worker id. -/
def countWorkerShifts (workerId : String) (schedule : Schedule) : Nat :=
  schedule.foldl
    (fun acc entry =>
      acc + (entry.2.filter (fun c => cellMatches c workerId)).length) 0

/-- The `tolerance_percentage` of the validator as constructed by default. -/
def tolerancePercentage : ℚ := 8

/-- The field `self.emergency_limit = 10.0`. -/
def emergencyLimit : ℚ := 10

/-- The field `self.critical_threshold = 15.0`. -/
def criticalThreshold : ℚ := 15

/-- The per-worker record built inside `validate_schedule_balance`. -/
structure WorkerInfo where
  worker_id : String
  target : Int
  assigned : Nat
  deviation : Int
  deviation_percentage : ℚ
  abs_deviation : ℚ
deriving Repr, DecidableEq

/-- The four severity tiers of `validate_schedule_balance`. -/
structure Tiers where
  withinTolerance : List WorkerInfo
  withinEmergency : List WorkerInfo
  critical : List WorkerInfo
  extreme : List WorkerInfo
deriving Repr, DecidableEq

/-- The `stats` dictionary of `validate_schedule_balance`. -/
structure Stats where
  totalWorkers : Nat
  maxDeviation : ℚ
  avgDeviation : ℚ
  totalDeviation : ℚ
deriving Repr, DecidableEq

/-- Full result of `validate_schedule_balance`. -/
structure BalanceResult where
  tiers : Tiers
  stats : Stats
  isBalanced : Bool
deriving Repr, DecidableEq

/-- The loop body of `validate_schedule_balance` for one worker with
nonzero target: build its info record. `deviation_percentage` is
`(deviation / target * 100) if target > 0 else 0`. -/
def workerInfoOf (schedule : Schedule) (w : Worker) : WorkerInfo :=
  let target := w.targetOf
  let assigned := countWorkerShifts w.id schedule
  let deviation : Int := (assigned : Int) - target
  let pct : ℚ := if target > 0 then (deviation : ℚ) / (target : ℚ) * 100 else 0
  { worker_id := w.id
    target := target
    assigned := assigned
    deviation := deviation
    deviation_percentage := pct
    abs_deviation := |pct| }

/-- Fold step of the classification loop: workers with
`target_shifts == 0` are skipped (`continue`); others are placed in
exactly one tier and folded into the running statistics. -/
def classifyStep (schedule : Schedule) (acc : Tiers × Stats) (w : Worker) :
    Tiers × Stats :=
  if w.targetOf = 0 then acc
  else
    let info := workerInfoOf schedule w
    let t := acc.1
    let s := acc.2
    let t :=
      if info.abs_deviation ≤ tolerancePercentage then
        { t with withinTolerance := t.withinTolerance ++ [info] }
      else if info.abs_deviation ≤ emergencyLimit then
        { t with withinEmergency := t.withinEmergency ++ [info] }
      else if info.abs_deviation ≤ criticalThreshold then
        { t with critical := t.critical ++ [info] }
      else
        { t with extreme := t.extreme ++ [info] }
    (t, { s with
          maxDeviation := max s.maxDeviation info.abs_deviation
          totalDeviation := s.totalDeviation + info.abs_deviation })

/-- Embeds `BalanceValidator.validate_schedule_balance`:
`stats['total_workers'] = len(workers_data)` counts every worker
(including skipped ones); `avg_deviation` divides by it at the end;
`is_balanced` is `len(critical) == 0 and len(extreme) == 0`. -/
def validateScheduleBalance (schedule : Schedule) (workers : List Worker) :
    BalanceResult :=
  let init : Tiers × Stats :=
    (⟨[], [], [], []⟩, ⟨workers.length, 0, 0, 0⟩)
  let r := workers.foldl (classifyStep schedule) init
  let stats :=
    if r.2.totalWorkers > 0 then
      { r.2 with avgDeviation := r.2.totalDeviation / (r.2.totalWorkers : ℚ) }
    else r.2
  { tiers := r.1
    stats := stats
    isBalanced := r.1.critical.length = 0 && r.1.extreme.length = 0 }

/-- The percentage deviation `|assigned - target| / target * 100` used by
`check_transfer_validity` (0 when the target is not positive). -/
def devPct (target assigned : Int) : ℚ :=
  if target > 0 then |(assigned - target : ℚ)| / (target : ℚ) * 100 else 0

/-- Reason tags mirroring the return branches of `check_transfer_validity`. -/
inductive TransferReason where
  | workerNotFound
  | bothImprove
  | sourceImproves
  | destImproves
  | worsens
deriving Repr, DecidableEq

/-- Embeds `BalanceValidator.check_transfer_validity`: deviations are
percentage distances `|assigned − target| / target * 100` (0 when the
target is not positive); after the transfer the source loses one shift
and the destination gains one; the emergency ceiling used is
`self.emergency_limit = 10.0`. -/
def checkTransferValidity (fromId toId : String) (schedule : Schedule)
    (workers : List Worker) : Bool × TransferReason :=
  match workers.find? (fun w => w.id = fromId),
        workers.find? (fun w => w.id = toId) with
  | some fromW, some toW =>
    let fromAssigned : Int := countWorkerShifts fromId schedule
    let toAssigned : Int := countWorkerShifts toId schedule
    let fromTarget := fromW.targetOf
    let toTarget := toW.targetOf
    let fromDev := devPct fromTarget fromAssigned
    let toDev := devPct toTarget toAssigned
    let fromDevAfter := devPct fromTarget (fromAssigned - 1)
    let toDevAfter := devPct toTarget (toAssigned + 1)
    let fromImproves := fromDevAfter < fromDev
    let toImproves := toDevAfter < toDev
    if fromImproves ∧ toImproves then (true, .bothImprove)
    else if fromImproves ∧ toDevAfter ≤ emergencyLimit then
      (true, .sourceImproves)
    else if toImproves ∧ fromDevAfter ≤ emergencyLimit then
      (true, .destImproves)
    else (false, .worsens)
  | _, _ => (false, .workerNotFound)

/-- The claim's acceptance condition, written from the spec's words:
both workers' deviations weakly improve, or one strictly improves while
the other's post-transfer deviation stays within the ±12% phase-2
ceiling. Deviation arithmetic as in the source. -/
def specTransferValid (fromId toId : String) (schedule : Schedule)
    (workers : List Worker) : Prop :=
  ∃ fromW toW, workers.find? (fun w => w.id = fromId) = some fromW ∧
    workers.find? (fun w => w.id = toId) = some toW ∧
    (let fromAssigned : Int := countWorkerShifts fromId schedule
     let toAssigned : Int := countWorkerShifts toId schedule
     let fromDev := devPct fromW.targetOf fromAssigned
     let toDev := devPct toW.targetOf toAssigned
     let fromDevAfter := devPct fromW.targetOf (fromAssigned - 1)
     let toDevAfter := devPct toW.targetOf (toAssigned + 1)
     (fromDevAfter ≤ fromDev ∧ toDevAfter ≤ toDev) ∨
       (fromDevAfter < fromDev ∧ toDevAfter ≤ 12) ∨
       (toDevAfter < toDev ∧ fromDevAfter ≤ 12))

/-- Concrete schedule for the transfer-validity disagreement: worker A
holds 3 shifts (target 2), worker B holds 9 shifts (target 9). -/
def schedC5 : Schedule :=
  [(0, [some "A"]), (1, [some "A"]), (2, [some "A"]), (3, [some "B"]),
   (4, [some "B"]), (5, [some "B"]), (6, [some "B"]), (7, [some "B"]),
   (8, [some "B"]), (9, [some "B"]), (10, [some "B"]), (11, [some "B"])]

/-- Worker data for the transfer-validity disagreement. -/
def workersC5 : List Worker := [⟨"A", some 2⟩, ⟨"B", some 9⟩]

/-- Two workers with zero / missing targets: their deviations are frozen
at 0, which weakly improves but never strictly improves. -/
def workersC5z : List Worker := [⟨"C", some 0⟩, ⟨"D", none⟩]

/-- Concrete schedule for the balance-statistics counterexample: worker
A holds 9 shifts against a target of 10 (10% deviation). -/
def schedC10 : Schedule :=
  [(0, [some "A"]), (1, [some "A"]), (2, [some "A"]), (3, [some "A"]),
   (4, [some "A"]), (5, [some "A"]), (6, [some "A"]), (7, [some "A"]),
   (8, [some "A"])]

/-- The worker with a 10% deviation. -/
def workerA10 : Worker := ⟨"A", some 10⟩

/-- A worker without `target_shifts` (skipped by the classification). -/
def workerZ : Worker := ⟨"Z", none⟩

end BalVal

namespace Core

/-- The method `_iterative_improvement_phase` raises its bound before the loop:
`if max_improvement_loops < 120: max_improvement_loops = 120`. -/
def effectiveMaxLoops (m : Nat) : Nat := if m < 120 then 120 else m

/-- One run of the improvement `while` loop, driven by an oracle `dec`
giving, for each completed iteration, whether that cycle made an
improvement and whether `should_continue_optimization` allowed going on.
Returns the number of completed iterations. `fuel` only bounds the
recursion; it is chosen large enough to never cut the loop short. -/
def improvementLoopAux (dec : Nat → Bool × Bool) (effMax : Nat) :
    Nat → Bool → Nat → Nat
  | count, _, 0 => count
  | count, improvement, fuel + 1 =>
    if improvement && count < effMax then
      let count := count + 1
      let cycleImprovement := (dec count).1
      let shouldContinue := (dec count).2
      if shouldContinue then improvementLoopAux dec effMax count cycleImprovement fuel
      else count
    else count

/-- Number of completed improvement-loop iterations of
`_iterative_improvement_phase` when called with `max_improvement_loops`,
for a given oracle of per-iteration outcomes. -/
def improvementLoopCount (dec : Nat → Bool × Bool) (m : Nat) : Nat :=
  improvementLoopAux dec (effectiveMaxLoops m) 0 true (effectiveMaxLoops m + 1)

/-- The state structures handled by
`_multiple_initial_distribution_attempts`. Dates are day numbers,
dictionaries are association lists. -/
structure SchedState where
  schedule : List (Nat × List (Option String))
  workerAssignments : List (String × List Nat)
  workerShiftCounts : List (String × Int)
  workerWeekendCounts : List (String × Int)
  workerPosts : List (String × List Nat)
  lastAssignmentDate : List (String × Option Nat)
  consecutiveShifts : List (String × Int)
deriving Repr, DecidableEq

/-- The per-attempt restore step of
`_multiple_initial_distribution_attempts` (lines 222–226): exactly
`schedule`, `worker_assignments`, `worker_shift_counts`,
`worker_weekend_counts` and `worker_posts` are overwritten with deep
copies of the mandatory backup; the two spacing-tracking fields are not
touched. -/
def restoreMandatory (backup cur : SchedState) : SchedState :=
  { cur with
    schedule := backup.schedule
    workerAssignments := backup.workerAssignments
    workerShiftCounts := backup.workerShiftCounts
    workerWeekendCounts := backup.workerWeekendCounts
    workerPosts := backup.workerPosts }

/-- The scheduler state at the start of attempt `k + 1` (0-indexed
here), where `s0` is the state at the end of the mandatory phase (the
backup is taken from it) and `fill k` is the state transformer realised
by attempt `k`'s `_perform_initial_fill_with_strategy` run. -/
def stateAtAttemptStart (s0 : SchedState) (fill : Nat → SchedState → SchedState) :
    Nat → SchedState
  | 0 => restoreMandatory s0 s0
  | k + 1 => restoreMandatory s0 (fill k (stateAtAttemptStart s0 fill k))

/-- One attempt's recorded result, as appended to `attempts_results`. -/
structure AttemptResult where
  attempt : Nat
  success : Bool
  score : ℚ
  emptyShifts : Nat
  workloadImbalance : ℚ
deriving Repr, DecidableEq

/-- The fold step of the best-attempt selection in
`_multiple_initial_distribution_attempts`: the accumulator holds
`(best_attempt, best_score)`; a successful attempt becomes the best only
when its score is strictly greater than `best_score`. -/
def selectStep (acc : Option Nat × ℚ) (r : AttemptResult) : Option Nat × ℚ :=
  if r.success = true ∧ acc.2 < r.score then (some r.attempt, r.score) else acc

/-- The selection loop over a chunk of the results list. -/
def selectFold (results : List AttemptResult) (init : Option Nat × ℚ) :
    Option Nat × ℚ :=
  results.foldl selectStep init

/-- The retained attempt number: `best_score` starts at −1 and
`best_attempt` at `None`; failed attempts are skipped. -/
def selectBestAttempt (results : List AttemptResult) : Option Nat :=
  (selectFold results (none, -1)).1

/-- A `Python` attribute error, carrying the missing attribute name. -/
inductive PyErr where
  | attributeError (name : String)
deriving Repr, DecidableEq

/-- The method names the `IterativeOptimizer` class defines
(read off `iterative_optimizer.py`). -/
def iterativeOptimizerMethods : List String :=
  ["__init__", "optimize_schedule", "_apply_optimization_strategies",
   "_redistribute_general_shifts", "_can_worker_take_shift",
   "_redistribute_weekend_shifts", "_apply_random_perturbations",
   "get_optimization_summary", "_should_stop_optimization",
   "_calculate_average_improvement", "_create_validation_report"]

/-- Python attribute lookup on an `IterativeOptimizer` instance:
succeeds exactly on the defined method names. -/
def getIterativeOptimizerAttr (name : String) : Except PyErr String :=
  if name ∈ iterativeOptimizerMethods then .ok name
  else .error (.attributeError name)

/-- The body of `_apply_tolerance_optimization` inside its `try` block,
up to the point where an exception can escape. The two violation lists
come from the tolerance validator (their content is irrelevant to the
outcome and is left universally quantified by the theorems). When the
total violation count is zero the method returns early; otherwise it
evaluates `self.iterative_optimizer.optimize`, an attribute the class
does not define, before anything mutates the schedule. -/
def applyToleranceOptimizationBody (outsideGeneral outsideWeekend : List String)
    (s : SchedState) : Except PyErr SchedState :=
  if outsideGeneral.length + outsideWeekend.length = 0 then .ok s
  else
    match getIterativeOptimizerAttr "optimize" with
    | .error e => .error e
    | .ok _ => .ok s

/-- Embeds `SchedulerCore._apply_tolerance_optimization`: the whole body runs
inside `try: ... except Exception:`, whose handler only logs and
returns, leaving the scheduler state as it was. -/
def applyToleranceOptimization (outsideGeneral outsideWeekend : List String)
    (s : SchedState) : SchedState :=
  match applyToleranceOptimizationBody outsideGeneral outsideWeekend s with
  | .ok s => s
  | .error _ => s

/-- A concrete scheduler state for witnesses. -/
def stateC3 : SchedState :=
  ⟨[(0, [some "W"])], [("W", [0])], [("W", 1)], [("W", 0)], [("W", [0])],
   [("W", some 0)], [("W", 1)]⟩

/-- Concrete post-mandatory state for the restore counterexample. -/
def s0C6 : SchedState :=
  ⟨[(0, [none])], [("W", [])], [("W", 0)], [("W", 0)], [("W", [])],
   [("W", none)], [("W", 0)]⟩

/-- A fill run that, like any real fill, updates the spacing-tracking
fields while assigning shifts. -/
def fillC6 : Nat → SchedState → SchedState := fun _ s =>
  { s with
    schedule := [(0, [some "W"])]
    lastAssignmentDate := [("W", some 3)]
    consecutiveShifts := [("W", 5)] }

/-- The two equal-score attempts of the tie-breaking counterexample:
attempt 2 has strictly fewer empty cells. -/
def resultsC7 : List AttemptResult :=
  [⟨1, true, 5, 3, 0⟩, ⟨2, true, 5, 0, 0⟩]

end Core

namespace Fill

/-- The `worker_order` values understood by `_get_ordered_workers_list`. -/
inductive OrderType where
  | balanced
  | random
  | sequential
  | reverse
  | workload
  | alternating
deriving Repr, DecidableEq

/-- A strategy dictionary as produced by `_select_distribution_strategy`. -/
structure Strategy where
  name : String
  workerOrder : OrderType
  randomize : Bool
  seed : Option Int
deriving Repr, DecidableEq

/-- The closed strategy table of `_select_distribution_strategy`; the
random entries derive their seed from the attempt number. -/
def strategyTable (attemptNum : Nat) : List Strategy :=
  [⟨"Balanced Sequential", .balanced, false, none⟩,
   ⟨"Random Seed A", .random, true, some (42 + attemptNum)⟩,
   ⟨"Sequential by ID", .sequential, false, none⟩,
   ⟨"Random Seed B", .random, true, some (100 + attemptNum * 7)⟩,
   ⟨"Reverse Sequential", .reverse, false, none⟩,
   ⟨"Random Seed C", .random, true, some (200 + attemptNum * 13)⟩,
   ⟨"Workload Priority", .workload, false, none⟩,
   ⟨"Random Seed D", .random, true, some (300 + attemptNum * 17)⟩,
   ⟨"Alternating Pattern", .alternating, false, none⟩,
   ⟨"Random Seed E", .random, true, some (400 + attemptNum * 23)⟩]

/-- Selects `strategies[(attempt_num - 1) % len(strategies)]`. -/
def selectDistributionStrategy (attemptNum : Nat) : Strategy :=
  (strategyTable attemptNum).getD ((attemptNum - 1) % 10)
    ⟨"Balanced Sequential", .balanced, false, none⟩

/-- A worker dictionary as consumed by `_get_ordered_workers_list`. -/
structure FWorker where
  id : String
  targetShifts : Int
deriving Repr, DecidableEq

/-- Models `random.seed(s)`: the global generator state becomes a pure function
of the seed alone. -/
def seedRng (s : Int) : Nat := (s % 2147483647).toNat

/-- One step of the deterministic generator under `random`. -/
def rngNext (st : Nat) : Nat := (st * 1103515245 + 12345) % 2147483648

/-- Remove the element at index `i`. -/
def removeNth {α : Type} (xs : List α) (i : Nat) : List α :=
  xs.take i ++ xs.drop (i + 1)

/-- Models `random.shuffle` as a deterministic permutation driven by
the generator state: repeatedly draw an index and move that element to
the front of the remaining output. -/
def shuffleGo {α : Type} : Nat → Nat → List α → List α × Nat
  | 0, st, _ => ([], st)
  | _ + 1, st, [] => ([], st)
  | fuel + 1, st, y :: ys =>
    let st2 := rngNext st
    let i := st2 % (y :: ys).length
    let x := (y :: ys).getD i y
    let rest := removeNth (y :: ys) i
    let r := shuffleGo fuel st2 rest
    (x :: r.1, r.2)

/-- Runs `random.shuffle(workers)` from the current generator state. -/
def pyShuffle {α : Type} (st : Nat) (xs : List α) : List α × Nat :=
  shuffleGo xs.length st xs

/-- The low/high interleaving of the `alternating` ordering. -/
def alternateGo {α : Type} : Nat → List α → List α
  | 0, _ => []
  | _ + 1, [] => []
  | _ + 1, [x] => [x]
  | fuel + 1, x :: y :: xs =>
    x :: (y :: xs).getLastD y :: alternateGo fuel (y :: xs).dropLast

/-- Embeds `SchedulerCore._get_ordered_workers_list`: every ordering except
`random` is a stable Python sort on worker fields or current shift
counts; `random` consumes the global generator. Returns the ordered
list together with the generator state afterwards. -/
def getOrderedWorkersList (order : OrderType) (rng : Nat)
    (workers : List FWorker) (shiftCounts : String → Int) :
    List FWorker × Nat :=
  match order with
  | .random => pyShuffle rng workers
  | .sequential =>
    (Sched.pySortBy (fun y x => decide (y.id ≤ x.id)) workers, rng)
  | .reverse =>
    (Sched.pySortBy (fun y x => decide (x.id ≤ y.id)) workers, rng)
  | .balanced =>
    (Sched.pySortBy (fun y x => decide (shiftCounts y.id ≤ shiftCounts x.id))
      workers, rng)
  | .workload =>
    (Sched.pySortBy (fun y x => decide (x.targetShifts ≤ y.targetShifts))
      workers, rng)
  | .alternating =>
    let sorted :=
      Sched.pySortBy (fun y x => decide (shiftCounts y.id ≤ shiftCounts x.id))
        workers
    (alternateGo sorted.length sorted, rng)

/-- The ordering part of `_perform_initial_fill_with_strategy`:
`random.seed(strategy['seed'])` is executed when the strategy carries a
seed, then `_get_ordered_workers_list(strategy['worker_order'])` runs. -/
def performInitialFillOrdering (strategy : Strategy) (rng : Nat)
    (workers : List FWorker) (shiftCounts : String → Int) :
    List FWorker × Nat :=
  let rng :=
    match strategy.seed with
    | some s => seedRng s
    | none => rng
  getOrderedWorkersList strategy.workerOrder rng workers shiftCounts

end Fill

namespace IterOpt

/-- Store of Python list objects holding the cells of one date; a
schedule dictionary maps each date to a reference into this store, so
that the in-place mutations of `IterativeOptimizer` (and the deep copies
it takes) are explicit. -/
abbrev CellStore := List (List (Option String))

/-- A list-format schedule object: insertion-ordered `(date, cell-list
reference)` pairs. -/
abbrev ScheduleObj := List (Nat × Nat)

/-- Read a cell list through its reference. -/
def derefCells (store : CellStore) (r : Nat) : List (Option String) :=
  store.getD r []

/-- In-place update of one cell-list object. -/
def storeWrite (store : CellStore) (r : Nat) (v : List (Option String)) :
    CellStore :=
  store.set r v

/-- Models `copy.deepcopy(schedule)`: fresh list objects are allocated at the
end of the store, one per date, each holding a copy of the current
cells. -/
def deepcopySchedule (store : CellStore) : ScheduleObj → CellStore × ScheduleObj
  | [] => (store, [])
  | e :: rest =>
    let r := store.length
    let store1 : CellStore := store ++ [derefCells store e.2]
    let res := deepcopySchedule store1 rest
    (res.1, (e.1, r) :: res.2)

/-- A violation dictionary as read by the redistribution strategies;
absent keys make the corresponding lookup raise. -/
structure Violation where
  worker : Option String
  deviationPct : Option ℚ
  shortage : Option Int
  excess : Option Int
deriving Repr, DecidableEq

/-- Entry of `need_more_shifts`. -/
structure NeedInfo where
  worker : String
  shortage : Int
  priority : ℚ
  deviation : ℚ
deriving Repr, DecidableEq

/-- Entry of `have_excess_shifts`. -/
structure ExcessInfo where
  worker : String
  excess : Int
  priority : ℚ
  deviation : ℚ
deriving Repr, DecidableEq

/-- The field `self.tolerance` of the optimizer as constructed by
`SchedulerCore.__init__` (0.08). -/
def tolerance : ℚ := 8 / 100

/-- The classification loop shared by both redistribution strategies:
for each violation read `worker` and `deviation_percentage` (a missing
key raises), then file the worker under `need_more_shifts` when the
deviation is below `-tolerance*100`, reading `shortage`, or under
`have_excess_shifts` when above `tolerance*100`, reading `excess`. -/
def buildLists : List Violation →
    Except Unit (List NeedInfo × List ExcessInfo)
  | [] => .ok ([], [])
  | v :: rest =>
    match v.worker, v.deviationPct with
    | some name, some dev =>
      if dev < -tolerance * 100 then
        match v.shortage with
        | some sh =>
          match buildLists rest with
          | .ok (need, exc) =>
            .ok (⟨name, |sh|, |dev| / 100, dev⟩ :: need, exc)
          | .error e => .error e
        | none => .error ()
      else if dev > tolerance * 100 then
        match v.excess with
        | some ex =>
          match buildLists rest with
          | .ok (need, exc) =>
            .ok (need, ⟨name, ex, dev / 100, dev⟩ :: exc)
          | .error e => .error e
        | none => .error ()
      else buildLists rest
    | _, _ => .error ()

/-- An availability value: `'ALL'` or a list of allowed shift names. -/
inductive AvailVal where
  | all
  | only (shifts : List String)
deriving Repr, DecidableEq

/-- A worker dictionary as read by `_can_worker_take_shift` (and, for
its optional `name` key, by `_apply_random_perturbations`). -/
structure WorkerData where
  id : String
  name : Option String
  availability : List (String × AvailVal)
deriving Repr, DecidableEq

/-- Computes `date.strftime('%A')` for day numbers with `weekday d = d % 7`,
0 = Monday. -/
def dayName (d : Nat) : String :=
  (["Monday", "Tuesday", "Wednesday", "Thursday", "Friday", "Saturday",
    "Sunday"]).getD (d % 7) "Monday"

/-- The worker-id extraction of `_can_worker_take_shift` (all ids are
modelled as strings, which collapses the numeric-conversion branch into
plain string comparison). -/
def extractWorkerId (name : String) : String :=
  if Sched.strLeadsWith name "Worker_" then name
  else if Sched.strLeadsWith name "Worker " ∧ name.data.length > 7 then
    ⟨name.data.drop 7⟩
  else name

/-- Embeds `IterativeOptimizer._can_worker_take_shift`: looks the worker up by
id, checks the per-day availability restriction, and rejects only when
the worker already appears in that date's cell list. No gap, 7/14 or
incompatibility constraint is consulted (the source marks the check as
a simplified version). -/
def canWorkerTakeShift (name : String) (dateKey : Nat) (shiftType : String)
    (store : CellStore) (sched : ScheduleObj) (workers : List WorkerData) :
    Bool :=
  let wid := extractWorkerId name
  match workers.find? (fun w => w.id = wid) with
  | none => false
  | some wd =>
    let availOk :=
      match wd.availability.lookup (dayName dateKey) with
      | some (.only shifts) => shiftType ∈ shifts
      | _ => true
    if availOk = false then false
    else
      match sched.find? (fun e => e.1 = dateKey) with
      | some e => decide (some name ∉ derefCells store e.2)
      | none => true

/-- Builds the shift name Post_i for post index i. -/
def postName (i : Nat) : String := "Post_" ++ toString i

/-- Collect `(date, shift_type, cell-list reference)` for every cell of
the schedule currently holding the given worker, in schedule order. -/
def collectWorkerShifts (store : CellStore) (sched : ScheduleObj)
    (name : String) : List (Nat × String × Nat) :=
  sched.foldl
    (fun acc e =>
      acc ++ ((Sched.enumFrom 0 (derefCells store e.2)).filterMap
        (fun ci =>
          if ci.2 = some name then some (e.1, postName ci.1, e.2) else none)))
    []

/-- Performs `need_info['shortage'] -= 1` on the first matching entry, as done by
the in-place update after a reassignment. -/
def decFirstShortage : List NeedInfo → String → List NeedInfo
  | [], _ => []
  | n :: rest, name =>
    if n.worker = name then { n with shortage := n.shortage - 1 } :: rest
    else n :: decFirstShortage rest name

/-- The mutable pieces threaded through a redistribution pass. -/
structure RedistState where
  store : CellStore
  need : List NeedInfo
  made : Nat
deriving Repr, DecidableEq

/-- The best-recipient scan of `_redistribute_general_shifts`:
candidates must have remaining shortage, must not already be in the
cell list, and must pass `_can_worker_take_shift`; severe shortages
(deviation below −15) get a 1.5× priority bonus; a candidate wins only
with strictly greater priority than the best so far (which starts at
0). -/
def findBestRecipient (store : CellStore) (sched : ScheduleObj)
    (workers : List WorkerData) (need : List NeedInfo) (date : Nat)
    (shiftType : String) (r : Nat) : Option String :=
  (need.foldl
    (fun (acc : Option String × ℚ) n =>
      if n.shortage ≤ 0 then acc
      else if ¬ some n.worker ∈ derefCells store r ∧
          canWorkerTakeShift n.worker date shiftType store sched workers then
        let p := if n.deviation < -15 then n.priority * (3 / 2) else n.priority
        if acc.2 < p then (some n.worker, p) else acc
      else acc)
    (none, 0)).1

/-- The inner loop of `_redistribute_general_shifts` over one excess
worker's shifts: stop once `shifts_removed` reaches `shifts_to_remove`;
for each shift find the best recipient, and when `list.index` still
finds the excess worker in the cell list, replace that occurrence
in place, decrement the recipient's shortage and count the
redistribution. -/
def generalInner (workers : List WorkerData) (sched : ScheduleObj)
    (excessName : String) (shiftsToRemove : Int) :
    List (Nat × String × Nat) → RedistState → Int → RedistState
  | [], st, _ => st
  | t :: rest, st, shiftsRemoved =>
    if shiftsRemoved ≥ shiftsToRemove then st
    else
      match findBestRecipient st.store sched workers st.need t.1 t.2.1 t.2.2 with
      | none =>
        generalInner workers sched excessName shiftsToRemove rest st
          shiftsRemoved
      | some recipient =>
        let cells := derefCells st.store t.2.2
        match Sched.findIdxFrom (fun c => c = some excessName) cells 0 with
        | none =>
          generalInner workers sched excessName shiftsToRemove rest st
            shiftsRemoved
        | some idx =>
          let st2 : RedistState :=
            { store := storeWrite st.store t.2.2 (cells.set idx (some recipient))
              need := decFirstShortage st.need recipient
              made := st.made + 1 }
          generalInner workers sched excessName shiftsToRemove rest st2
            (shiftsRemoved + 1)

/-- The outer loop of `_redistribute_general_shifts` over
`have_excess_shifts`: break once `redistributions_made` reaches the cap;
remove up to `min(excess, 4)` shifts per excess worker, visiting that
worker's shifts in date-descending order. -/
def generalOuter (workers : List WorkerData) (sched : ScheduleObj)
    (maxRedistributions : Nat) : List ExcessInfo → RedistState → RedistState
  | [], st => st
  | e :: rest, st =>
    if st.made ≥ maxRedistributions then st
    else
      let wshifts :=
        Sched.pySortBy (fun y x => decide (x.1 ≤ y.1))
          (collectWorkerShifts st.store sched e.worker)
      let st2 := generalInner workers sched e.worker (min e.excess 4) wshifts st 0
      generalOuter workers sched maxRedistributions rest st2

/-- Embeds `IterativeOptimizer._redistribute_general_shifts`: deep-copy the
incoming schedule, classify the violations inside a `try` block whose
handler returns the original schedule object on error, sort both
violation lists by priority (descending, stable), then run the
redistribution loops on the copy with a cap of
`min(30, len(violations) * 3)` moves. -/
def redistributeGeneralShifts (store : CellStore) (sched : ScheduleObj)
    (viols : List Violation) (workers : List WorkerData) :
    CellStore × ScheduleObj :=
  let c := deepcopySchedule store sched
  match buildLists viols with
  | .error _ => (c.1, sched)
  | .ok lists =>
    let need :=
      Sched.pySortBy (fun y x => decide (x.priority ≤ y.priority)) lists.1
    let exc :=
      Sched.pySortBy (fun y x => decide (x.priority ≤ y.priority)) lists.2
    let maxRedistributions := min 30 (viols.length * 3)
    let final := generalOuter workers c.2 maxRedistributions exc
      ⟨c.1, need, 0⟩
    (final.store, c.2)

/-- The weekend variant of the best-recipient scan: severe weekend
shortages (deviation below −25) get a 2× bonus and Saturdays a further
1.1× bonus. -/
def findBestWeekendRecipient (store : CellStore) (sched : ScheduleObj)
    (workers : List WorkerData) (need : List NeedInfo) (date : Nat)
    (shiftType : String) (r : Nat) : Option String :=
  (need.foldl
    (fun (acc : Option String × ℚ) n =>
      if n.shortage ≤ 0 then acc
      else if ¬ some n.worker ∈ derefCells store r ∧
          canWorkerTakeShift n.worker date shiftType store sched workers then
        let p := if n.deviation < -25 then n.priority * 2 else n.priority
        let p := if date % 7 = 5 then p * (11 / 10) else p
        if acc.2 < p then (some n.worker, p) else acc
      else acc)
    (none, 0)).1

/-- The enumerated inner loop of `_redistribute_weekend_shifts`: stop at
index `shifts_to_redistribute` or at the redistribution cap. -/
def weekendInner (workers : List WorkerData) (sched : ScheduleObj)
    (excessName : String) (shiftsToRedistribute : Nat)
    (maxRedistributions : Nat) :
    List (Nat × String × Nat) → RedistState → Nat → RedistState
  | [], st, _ => st
  | t :: rest, st, i =>
    if i ≥ shiftsToRedistribute ∨ st.made ≥ maxRedistributions then st
    else
      match findBestWeekendRecipient st.store sched workers st.need t.1 t.2.1
          t.2.2 with
      | none =>
        weekendInner workers sched excessName shiftsToRedistribute
          maxRedistributions rest st (i + 1)
      | some recipient =>
        let cells := derefCells st.store t.2.2
        match Sched.findIdxFrom (fun c => c = some excessName) cells 0 with
        | none =>
          weekendInner workers sched excessName shiftsToRedistribute
            maxRedistributions rest st (i + 1)
        | some idx =>
          let st2 : RedistState :=
            { store := storeWrite st.store t.2.2 (cells.set idx (some recipient))
              need := decFirstShortage st.need recipient
              made := st.made + 1 }
          weekendInner workers sched excessName shiftsToRedistribute
            maxRedistributions rest st2 (i + 1)

/-- The outer loop of `_redistribute_weekend_shifts` over
`have_excess_weekends`, collecting each worker's shifts on weekend
dates (weekday 5 or 6) in schedule order. -/
def weekendOuter (workers : List WorkerData) (sched : ScheduleObj)
    (maxRedistributions : Nat) : List ExcessInfo → RedistState → RedistState
  | [], st => st
  | e :: rest, st =>
    if st.made ≥ maxRedistributions then st
    else
      let weekendSched := sched.filter (fun p => p.1 % 7 = 5 ∨ p.1 % 7 = 6)
      let wshifts := collectWorkerShifts st.store weekendSched e.worker
      let st2 := weekendInner workers sched e.worker
        (min wshifts.length e.excess.toNat) maxRedistributions wshifts st 0
      weekendOuter workers sched maxRedistributions rest st2

/-- Embeds `IterativeOptimizer._redistribute_weekend_shifts`: deep-copy, then
classify (this variant has no local handler, so a missing violation key
propagates after the copy was taken and before any cell is written),
sort by priority, and run the weekend loops with a cap of
`min(15, len(violations) * 2)` moves. -/
def redistributeWeekendShifts (store : CellStore) (sched : ScheduleObj)
    (viols : List Violation) (workers : List WorkerData) :
    CellStore × Except Unit ScheduleObj :=
  let c := deepcopySchedule store sched
  match buildLists viols with
  | .error _ => (c.1, .error ())
  | .ok lists =>
    let need :=
      Sched.pySortBy (fun y x => decide (x.priority ≤ y.priority)) lists.1
    let exc :=
      Sched.pySortBy (fun y x => decide (x.priority ≤ y.priority)) lists.2
    let maxRedistributions := min 15 (viols.length * 2)
    let final := weekendOuter workers c.2 maxRedistributions exc
      ⟨c.1, need, 0⟩
    (final.store, .ok c.2)

/-- Embeds `IterativeOptimizer._apply_random_perturbations` on a list-format
schedule: after its own deep copy it raises before any swap, either a
key error on a worker without `name` or an attribute error when it
treats the date's cell list as a dictionary. Nothing is ever written. -/
def applyRandomPerturbations (store : CellStore) (sched : ScheduleObj) :
    CellStore × Except Unit ScheduleObj :=
  let c := deepcopySchedule store sched
  (c.1, .error ())

/-- Embeds `IterativeOptimizer._apply_optimization_strategies`: work on a deep
copy; run the general redistribution when there are general violations,
then the weekend redistribution when there are weekend violations, then
the random perturbations when `iteration > 1` and (total violations
> 15 or the stagnation counter exceeds 1). -/
def applyOptimizationStrategies (store : CellStore) (sched : ScheduleObj)
    (generalViols weekendViols : List Violation) (workers : List WorkerData)
    (iteration stagnationCounter : Nat) :
    CellStore × Except Unit ScheduleObj :=
  let c := deepcopySchedule store sched
  let g :=
    if generalViols ≠ [] then
      redistributeGeneralShifts c.1 c.2 generalViols workers
    else (c.1, c.2)
  let w :=
    if weekendViols ≠ [] then
      redistributeWeekendShifts g.1 g.2 weekendViols workers
    else (g.1, .ok g.2)
  match w.2 with
  | .error e => (w.1, .error e)
  | .ok s2 =>
    if iteration > 1 ∧
        (generalViols.length + weekendViols.length > 15 ∨
          stagnationCounter > 1) then
      applyRandomPerturbations w.1 s2
    else (w.1, .ok s2)

/-- The 7/14 pattern check of `verify_7_14_constraint.py`: some worker
holds two cells on dates with equal weekday exactly 7 or 14 days
apart. -/
def sevenFourteenViolation (store : CellStore) (sched : ScheduleObj) : Bool :=
  sched.any fun e1 => sched.any fun e2 =>
    decide (e1.1 < e2.1) && (e2.1 - e1.1 = 7 || e2.1 - e1.1 = 14) &&
    decide (e1.1 % 7 = e2.1 % 7) &&
    (derefCells store e1.2).any fun c =>
      c.isSome && decide (c ∈ derefCells store e2.2)

/-- Concrete failing input for the 7/14 check: worker B holds date 0,
worker A holds date 7 (same weekday, 7 days apart), A is over target
and B under. -/
def storeC1 : CellStore := [[some "Worker_B"], [some "Worker_A"]]

/-- The schedule object for the failing input. -/
def schedC1 : ScheduleObj := [(0, 0), (7, 1)]

/-- The two tolerance violations of the failing input. -/
def violsC1 : List Violation :=
  [⟨some "Worker_A", some 20, some 0, some 2⟩,
   ⟨some "Worker_B", some (-20), some 2, some 0⟩]

/-- The worker data of the failing input: no availability restrictions
and no incompatibility is even representable for the checker. -/
def workersC1 : List WorkerData :=
  [⟨"Worker_A", none, []⟩, ⟨"Worker_B", none, []⟩]

/-- Concrete store for the frame witness: one cell list. -/
def storeC9 : CellStore := [[some "X"]]

/-- Concrete schedule object for the frame witness. -/
def schedC9 : ScheduleObj := [(0, 0)]

/-- A malformed violation dictionary (no keys), which makes the
classification raise. -/
def violC9 : Violation := ⟨none, none, none, none⟩

end IterOpt

namespace BTrack

/-- The mutable dictionary objects of the scheduler live in typed
stores; every `ScheduleState` structure is a reference into the store of
its type, so that sharing between the live scheduler and a checkpoint is
observable. -/
structure Mem where
  schedDicts : List (List (Nat × List (Option String)))
  setDicts : List (List (String × List Nat))
  intDicts : List (List (String × Int))
  nestedDicts : List (List (String × List (Nat × Int)))
  dateDicts : List (List (String × Option Nat))
deriving Repr, DecidableEq

/-- The ten `ScheduleState` structures held by the scheduler (and, after
`create_checkpoint`, by a `ScheduleCheckpoint`), as references. -/
structure StateRefs where
  schedule : Nat
  workerAssignments : Nat
  workerShiftCounts : Nat
  workerWeekendCounts : Nat
  workerPosts : Nat
  workerPostCounts : Nat
  lastAssignmentDate : Nat
  consecutiveShifts : Nat
  workerWeekdays : Nat
  workerWeekends : Nat
deriving Repr, DecidableEq

/-- Read a schedule dictionary. -/
def getSched (m : Mem) (r : Nat) : List (Nat × List (Option String)) :=
  m.schedDicts.getD r []

/-- Read a set-valued dictionary (assignments, posts, weekends). -/
def getSet (m : Mem) (r : Nat) : List (String × List Nat) :=
  m.setDicts.getD r []

/-- Read an integer-valued dictionary (shift counts, weekend counts,
consecutive shifts). -/
def getInt (m : Mem) (r : Nat) : List (String × Int) :=
  m.intDicts.getD r []

/-- Read a nested counter dictionary (post counts, weekdays). -/
def getNested (m : Mem) (r : Nat) : List (String × List (Nat × Int)) :=
  m.nestedDicts.getD r []

/-- Read a date-valued dictionary (last assignment date). -/
def getDate (m : Mem) (r : Nat) : List (String × Option Nat) :=
  m.dateDicts.getD r []

/-- Embeds `ScheduleCheckpoint.__post_init__` applied to the scheduler state
passed by `create_checkpoint`: it re-binds `schedule`,
`worker_assignments`, `worker_posts`, `worker_post_counts`,
`worker_weekdays` and `worker_weekends` to fresh copies, while
`worker_shift_counts`, `worker_weekend_counts`, `last_assignment_date`
and `consecutive_shifts` keep referring to the scheduler's own
dictionary objects. -/
def createCheckpoint (m : Mem) (s : StateRefs) : Mem × StateRefs :=
  let rSched := m.schedDicts.length
  let m := { m with schedDicts := m.schedDicts ++ [getSched m s.schedule] }
  let rAssign := m.setDicts.length
  let m := { m with
    setDicts := m.setDicts ++ [getSet m s.workerAssignments] }
  let rPosts := m.setDicts.length
  let m := { m with setDicts := m.setDicts ++ [getSet m s.workerPosts] }
  let rWeekends := m.setDicts.length
  let m := { m with setDicts := m.setDicts ++ [getSet m s.workerWeekends] }
  let rPostCounts := m.nestedDicts.length
  let m := { m with
    nestedDicts := m.nestedDicts ++ [getNested m s.workerPostCounts] }
  let rWeekdays := m.nestedDicts.length
  let m := { m with
    nestedDicts := m.nestedDicts ++ [getNested m s.workerWeekdays] }
  (m,
   { schedule := rSched
     workerAssignments := rAssign
     workerShiftCounts := s.workerShiftCounts
     workerWeekendCounts := s.workerWeekendCounts
     workerPosts := rPosts
     workerPostCounts := rPostCounts
     lastAssignmentDate := s.lastAssignmentDate
     consecutiveShifts := s.consecutiveShifts
     workerWeekdays := rWeekdays
     workerWeekends := rWeekends })

/-- In-place update of one key of an integer-valued dictionary
(`scheduler.worker_shift_counts[w] += 1` style mutation). -/
def setIntKey (m : Mem) (r : Nat) (key : String) (v : Int) : Mem :=
  { m with
    intDicts := m.intDicts.set r
      ((m.intDicts.getD r []).map
        (fun kv => if kv.1 = key then (kv.1, v) else kv)) }

/-- In-place update of one cell of the live schedule dictionary. -/
def setSchedCell (m : Mem) (r : Nat) (date : Nat)
    (cells : List (Option String)) : Mem :=
  { m with
    schedDicts := m.schedDicts.set r
      ((m.schedDicts.getD r []).map
        (fun kv => if kv.1 = date then (kv.1, cells) else kv)) }

/-- Concrete live memory for the checkpoint aliasing scenario: one
worker `W1` with one assignment. -/
def memC2 : Mem :=
  { schedDicts := [[(0, [some "W1"])]]
    setDicts := [[("W1", [0])], [("W1", [0])], [("W1", [])]]
    intDicts := [[("W1", 1)], [("W1", 0)], [("W1", 0)]]
    nestedDicts := [[("W1", [(0, 1)])], [("W1", [(2, 1)])]]
    dateDicts := [[("W1", some 0)]] }

/-- The scheduler's references into `memC2`. -/
def refsC2 : StateRefs :=
  { schedule := 0
    workerAssignments := 0
    workerShiftCounts := 0
    workerWeekendCounts := 1
    workerPosts := 1
    workerPostCounts := 0
    lastAssignmentDate := 0
    consecutiveShifts := 2
    workerWeekdays := 1
    workerWeekends := 2 }

end BTrack

/-!
## Theorems

The remainder of the file settles the specification claims against the
embedded definitions above.
-/

namespace Core

theorem improvementLoopAux_le (dec : Nat → Bool × Bool) (effMax : Nat) :
    ∀ fuel count improvement, count ≤ effMax →
      improvementLoopAux dec effMax count improvement fuel ≤ effMax := by
  intro fuel
  induction fuel with
  | zero =>
    intro count improvement h
    simpa [improvementLoopAux] using h
  | succ n ih =>
    intro count improvement h
    simp only [improvementLoopAux]
    by_cases hc : (improvement && decide (count < effMax)) = true
    · rw [if_pos hc]
      rw [Bool.and_eq_true] at hc
      have hlt : count < effMax := of_decide_eq_true hc.2
      by_cases hs : (dec (count + 1)).2 = true
      · rw [if_pos hs]
        exact ih (count + 1) (dec (count + 1)).1 hlt
      · rw [if_neg hs]
        exact hlt
    · rw [if_neg hc]
      exact h

theorem effectiveMaxLoops_eq_max (m : Nat) : effectiveMaxLoops m = max 120 m := by
  unfold effectiveMaxLoops
  split <;> omega

/-- C4 (counterexample): with `max_improvement_loops = 70` (the default
of `orchestrate_schedule_generation`) and an oracle that always reports
an improvement and permission to continue, the improvement loop
completes 120 iterations, exceeding the caller's bound of 70 — the loop
bound is silently raised to 120. -/
theorem c4_loop_exceeds_caller_bound :
    improvementLoopCount (fun _ => (true, true)) 70 = 120 ∧ ¬ (120 ≤ 70) := by
  constructor
  · decide
  · decide

/-- C4 (amended): the improvement loop of
`_iterative_improvement_phase` completes at most
`max 120 max_improvement_loops` iterations: the bound passed by the
caller is respected only when it is at least 120, because the phase
raises any smaller bound to 120 before entering the loop. -/
theorem c4_loop_bounded_by_effective_max (dec : Nat → Bool × Bool) (m : Nat) :
    improvementLoopCount dec m ≤ max 120 m := by
  unfold improvementLoopCount
  rw [effectiveMaxLoops_eq_max]
  exact improvementLoopAux_le dec (max 120 m) (max 120 m + 1) 0 true
    (Nat.zero_le _)

/-- C3: `_apply_tolerance_optimization` never propagates an exception
and leaves the scheduler state (in particular the schedule) unchanged,
whatever the tolerance validator reports: when violations exist it
evaluates `self.iterative_optimizer.optimize`, an attribute
`IterativeOptimizer` does not define (the class defines
`optimize_schedule`), the lookup raises `AttributeError`, and the
surrounding handler catches it before any mutation. -/
theorem c3_tolerance_optimization_leaves_schedule
    (g w : List String) (s : SchedState) :
    applyToleranceOptimization g w s = s ∧
    "optimize" ∉ iterativeOptimizerMethods ∧
    "optimize_schedule" ∈ iterativeOptimizerMethods ∧
    (g.length + w.length ≠ 0 →
      applyToleranceOptimizationBody g w s =
        .error (.attributeError "optimize")) := by
  have hbody : ∀ h : g.length + w.length ≠ 0,
      applyToleranceOptimizationBody g w s =
        .error (.attributeError "optimize") := by
    intro h
    unfold applyToleranceOptimizationBody getIterativeOptimizerAttr
    rw [if_neg h, if_neg (by decide)]
  refine ⟨?_, by decide, by decide, hbody⟩
  unfold applyToleranceOptimization
  by_cases h : g.length + w.length = 0
  · unfold applyToleranceOptimizationBody
    rw [if_pos h]
  · rw [hbody h]

/-- Witness for C3 at a concrete state with one reported violation. -/
theorem c3_witness :
    applyToleranceOptimization ["W"] [] stateC3 = stateC3 ∧
    applyToleranceOptimizationBody ["W"] [] stateC3 =
      .error (.attributeError "optimize") :=
  ⟨(c3_tolerance_optimization_leaves_schedule ["W"] [] stateC3).1,
   (c3_tolerance_optimization_leaves_schedule ["W"] [] stateC3).2.2.2
     (by decide)⟩

/-- C6 (counterexample): after attempt 1 runs a fill that records
spacing data, the state at the start of attempt 2 differs from the
post-mandatory snapshot: `consecutive_shifts` (and
`last_assignment_date`) keep the values the previous attempt left. -/
theorem c6_spacing_fields_not_restored :
    stateAtAttemptStart s0C6 fillC6 1 ≠ s0C6 ∧
    (stateAtAttemptStart s0C6 fillC6 1).consecutiveShifts ≠
      s0C6.consecutiveShifts ∧
    (stateAtAttemptStart s0C6 fillC6 1).lastAssignmentDate ≠
      s0C6.lastAssignmentDate := by
  refine ⟨?_, by decide, by decide⟩
  decide

/-- C6 (amended): at the start of every initial-distribution attempt
exactly the five backed-up structures — `schedule`,
`worker_assignments`, `worker_shift_counts`, `worker_weekend_counts`
and `worker_posts` — equal the post-mandatory snapshot; the
spacing-tracking fields `last_assignment_date` and
`consecutive_shifts` are not restored and carry over whatever the
previous attempt's fill left in them. -/
theorem c6_restored_fields_equal_snapshot (s0 : SchedState)
    (fill : Nat → SchedState → SchedState) (k : Nat) :
    (stateAtAttemptStart s0 fill k).schedule = s0.schedule ∧
    (stateAtAttemptStart s0 fill k).workerAssignments = s0.workerAssignments ∧
    (stateAtAttemptStart s0 fill k).workerShiftCounts = s0.workerShiftCounts ∧
    (stateAtAttemptStart s0 fill k).workerWeekendCounts =
      s0.workerWeekendCounts ∧
    (stateAtAttemptStart s0 fill k).workerPosts = s0.workerPosts ∧
    (stateAtAttemptStart s0 fill (k + 1)).lastAssignmentDate =
      (fill k (stateAtAttemptStart s0 fill k)).lastAssignmentDate ∧
    (stateAtAttemptStart s0 fill (k + 1)).consecutiveShifts =
      (fill k (stateAtAttemptStart s0 fill k)).consecutiveShifts := by
  cases k <;>
    exact ⟨rfl, rfl, rfl, rfl, rfl, rfl, rfl⟩

theorem selectFold_cons (r : AttemptResult) (rs : List AttemptResult)
    (init : Option Nat × ℚ) :
    selectFold (r :: rs) init = selectFold rs (selectStep init r) := rfl

theorem selectFold_append (xs ys : List AttemptResult)
    (init : Option Nat × ℚ) :
    selectFold (xs ++ ys) init = selectFold ys (selectFold xs init) := by
  simp [selectFold, List.foldl_append]

theorem selectFold_stays (rs : List AttemptResult) (init : Option Nat × ℚ)
    (h : ∀ r ∈ rs, r.success = true → r.score ≤ init.2) :
    selectFold rs init = init := by
  induction rs with
  | nil => rfl
  | cons r rs ih =>
    rw [selectFold_cons]
    have hstep : selectStep init r = init := by
      unfold selectStep
      rw [if_neg]
      rintro ⟨hs, hlt⟩
      exact absurd hlt (not_lt.mpr (h r (List.mem_cons_self r rs) hs))
    rw [hstep]
    exact ih (fun r hr hs => h r (List.mem_cons_of_mem _ hr) hs)

theorem selectFold_snd_lt (rs : List AttemptResult) (c : ℚ) :
    ∀ init : Option Nat × ℚ, init.2 < c →
      (∀ r ∈ rs, r.success = true → r.score < c) →
      (selectFold rs init).2 < c := by
  induction rs with
  | nil => intro init h _; exact h
  | cons r rs ih =>
    intro init h hall
    rw [selectFold_cons]
    refine ih _ ?_ (fun x hx hs => hall x (List.mem_cons_of_mem _ hx) hs)
    unfold selectStep
    by_cases hc : r.success = true ∧ init.2 < r.score
    · rw [if_pos hc]
      exact hall r (List.mem_cons_self r rs) hc.1
    · rw [if_neg hc]
      exact h

/-- C7 (counterexample): two successful attempts with equal scores,
where the second has strictly fewer empty cells; the selection keeps
the first attempt, so the claimed empty-cell tie-break does not
happen. -/
theorem c7_equal_scores_keep_first_attempt :
    (resultsC7.map (fun r => r.score)) = [5, 5] ∧
    (resultsC7.map (fun r => r.emptyShifts)) = [3, 0] ∧
    selectBestAttempt resultsC7 = some 1 ∧ (1 : Nat) ≠ 2 := by
  refine ⟨by decide, by decide, ?_, by decide⟩
  decide

/-- C7 (amended): the retained attempt is the first successful attempt
whose score is strictly greater than every earlier successful score and
at least every later successful score (and greater than the initial
best score of −1); equal-score attempts never displace it, and no
empty-cell or imbalance tie-break is applied. -/
theorem c7_first_strict_max_retained (xs ys : List AttemptResult)
    (r : AttemptResult) (hs : r.success = true) (hgt : (-1 : ℚ) < r.score)
    (hxs : ∀ x ∈ xs, x.success = true → x.score < r.score)
    (hys : ∀ y ∈ ys, y.success = true → y.score ≤ r.score) :
    selectBestAttempt (xs ++ r :: ys) = some r.attempt := by
  unfold selectBestAttempt
  rw [selectFold_append, selectFold_cons]
  have hlt : (selectFold xs (none, -1)).2 < r.score :=
    selectFold_snd_lt xs r.score (none, -1) hgt hxs
  have hstep : selectStep (selectFold xs (none, -1)) r =
      (some r.attempt, r.score) := by
    unfold selectStep
    rw [if_pos ⟨hs, hlt⟩]
  rw [hstep, selectFold_stays ys (some r.attempt, r.score) hys]

/-- Witness for C7: the second attempt scores strictly higher and is
retained. -/
theorem c7_witness :
    selectBestAttempt [⟨1, true, 3, 0, 0⟩, ⟨2, true, 5, 0, 0⟩] = some 2 := by
  have h := c7_first_strict_max_retained [⟨1, true, 3, 0, 0⟩] []
    ⟨2, true, 5, 0, 0⟩ rfl (by norm_num)
    (by
      intro x hx _
      rw [List.mem_singleton] at hx
      rw [hx]
      norm_num)
    (by intro y hy _; cases hy)
  exact h

end Core

namespace BalVal

theorem workerInfoOf_target (sched : Schedule) (w : Worker) :
    (workerInfoOf sched w).target = w.targetOf := rfl

theorem workerInfoOf_abs_of_nonpos (sched : Schedule) (w : Worker)
    (h : ¬ w.targetOf > 0) :
    (workerInfoOf sched w).abs_deviation = 0 := by
  simp [workerInfoOf, h]

theorem classifyStep_zero (sched : Schedule) (acc : Tiers × Stats)
    (w : Worker) (h : w.targetOf = 0) : classifyStep sched acc w = acc := by
  simp [classifyStep, h]

theorem classifyStep_retotal (sched : Schedule) (t : Tiers) (s : Stats)
    (n : Nat) (w : Worker) :
    classifyStep sched (t, { s with totalWorkers := n }) w =
      ((classifyStep sched (t, s) w).1,
       { (classifyStep sched (t, s) w).2 with totalWorkers := n }) := by
  by_cases h : w.targetOf = 0
  · simp [classifyStep, h]
  · simp only [classifyStep, h, if_false]

theorem foldl_classify_retotal (sched : Schedule) (ws : List Worker) :
    ∀ (t : Tiers) (s : Stats) (n : Nat),
      ws.foldl (classifyStep sched) (t, { s with totalWorkers := n }) =
        ((ws.foldl (classifyStep sched) (t, s)).1,
         { (ws.foldl (classifyStep sched) (t, s)).2 with totalWorkers := n }) := by
  induction ws with
  | nil => intro t s n; rfl
  | cons w ws ih =>
    intro t s n
    rw [List.foldl_cons, List.foldl_cons, classifyStep_retotal]
    exact ih (classifyStep sched (t, s) w).1 (classifyStep sched (t, s) w).2 n

theorem foldl_classify_filter (sched : Schedule) (ws : List Worker) :
    ∀ init, (ws.filter (fun w => w.targetOf != 0)).foldl
        (classifyStep sched) init = ws.foldl (classifyStep sched) init := by
  induction ws with
  | nil => intro init; rfl
  | cons w ws ih =>
    intro init
    by_cases h : w.targetOf = 0
    · rw [List.filter_cons, if_neg (by simp [h]), List.foldl_cons,
        classifyStep_zero sched init w h]
      exact ih init
    · rw [List.filter_cons, if_pos (by simp [h]), List.foldl_cons,
        List.foldl_cons]
      exact ih (classifyStep sched init w)

theorem fold_critical_mono (sched : Schedule) (ws : List Worker) :
    ∀ (t : Tiers) (s : Stats),
      t.critical.length ≤ (ws.foldl (classifyStep sched) (t, s)).1.critical.length ∧
      t.extreme.length ≤ (ws.foldl (classifyStep sched) (t, s)).1.extreme.length := by
  induction ws with
  | nil => intro t s; exact ⟨le_refl _, le_refl _⟩
  | cons w ws ih =>
    intro t s
    rw [List.foldl_cons]
    by_cases h : w.targetOf = 0
    · rw [classifyStep_zero sched (t, s) w h]
      exact ih t s
    · have hstep := ih (classifyStep sched (t, s) w).1
        (classifyStep sched (t, s) w).2
      have hc : t.critical.length ≤
          (classifyStep sched (t, s) w).1.critical.length ∧
          t.extreme.length ≤
          (classifyStep sched (t, s) w).1.extreme.length := by
        by_cases h1 : (workerInfoOf sched w).abs_deviation ≤ tolerancePercentage
        · simp only [classifyStep, h, if_false, h1, if_true]
          simp
        · by_cases h2 : (workerInfoOf sched w).abs_deviation ≤ emergencyLimit
          · simp only [classifyStep, h, if_false, h1, h2, if_true]
            simp
          · by_cases h3 :
                (workerInfoOf sched w).abs_deviation ≤ criticalThreshold
            · simp only [classifyStep, h, if_false, h1, h2, h3, if_true]
              simp
            · simp only [classifyStep, h, if_false, h1, h2, h3]
              simp
      constructor
      · exact le_trans hc.1 hstep.1
      · exact le_trans hc.2 hstep.2

theorem fold_crit_ext_empty (sched : Schedule) (ws : List Worker) :
    ∀ (t : Tiers) (s : Stats),
      ((ws.foldl (classifyStep sched) (t, s)).1.critical = [] ∧
        (ws.foldl (classifyStep sched) (t, s)).1.extreme = []) ↔
      (t.critical = [] ∧ t.extreme = [] ∧
        ∀ w ∈ ws, w.targetOf ≠ 0 →
          (workerInfoOf sched w).abs_deviation ≤ emergencyLimit) := by
  induction ws with
  | nil =>
    intro t s
    simp
  | cons w ws ih =>
    intro t s
    rw [List.foldl_cons]
    by_cases h : w.targetOf = 0
    · rw [classifyStep_zero sched (t, s) w h, ih t s]
      constructor
      · rintro ⟨h1, h2, h3⟩
        exact ⟨h1, h2, by
          intro x hx hnz
          rcases List.mem_cons.mp hx with hx | hx
          · subst hx; exact absurd h hnz
          · exact h3 x hx hnz⟩
      · rintro ⟨h1, h2, h3⟩
        exact ⟨h1, h2, fun x hx hnz => h3 x (List.mem_cons_of_mem _ hx) hnz⟩
    · by_cases h1 : (workerInfoOf sched w).abs_deviation ≤ tolerancePercentage
      · have hstep : classifyStep sched (t, s) w =
            ({ t with withinTolerance :=
                t.withinTolerance ++ [workerInfoOf sched w] },
             { s with
               maxDeviation := max s.maxDeviation
                 (workerInfoOf sched w).abs_deviation
               totalDeviation := s.totalDeviation +
                 (workerInfoOf sched w).abs_deviation }) := by
          simp only [classifyStep, h, if_false, h1, if_true]
        rw [hstep, ih]
        constructor
        · rintro ⟨h2, h3, h4⟩
          refine ⟨h2, h3, ?_⟩
          intro x hx hnz
          rcases List.mem_cons.mp hx with hx | hx
          · subst hx
            exact le_trans h1 (by norm_num [tolerancePercentage, emergencyLimit])
          · exact h4 x hx hnz
        · rintro ⟨h2, h3, h4⟩
          exact ⟨h2, h3, fun x hx hnz => h4 x (List.mem_cons_of_mem _ hx) hnz⟩
      · by_cases h2 : (workerInfoOf sched w).abs_deviation ≤ emergencyLimit
        · have hstep : classifyStep sched (t, s) w =
              ({ t with withinEmergency :=
                  t.withinEmergency ++ [workerInfoOf sched w] },
               { s with
                 maxDeviation := max s.maxDeviation
                   (workerInfoOf sched w).abs_deviation
                 totalDeviation := s.totalDeviation +
                   (workerInfoOf sched w).abs_deviation }) := by
            simp only [classifyStep, h, if_false, h1, h2, if_true]
          rw [hstep, ih]
          constructor
          · rintro ⟨h3, h4, h5⟩
            refine ⟨h3, h4, ?_⟩
            intro x hx hnz
            rcases List.mem_cons.mp hx with hx | hx
            · subst hx; exact h2
            · exact h5 x hx hnz
          · rintro ⟨h3, h4, h5⟩
            exact ⟨h3, h4, fun x hx hnz => h5 x (List.mem_cons_of_mem _ hx) hnz⟩
        · constructor
          · intro hres
            exfalso
            by_cases h3 : (workerInfoOf sched w).abs_deviation ≤ criticalThreshold
            · have hstep : classifyStep sched (t, s) w =
                  ({ t with critical := t.critical ++ [workerInfoOf sched w] },
                   { s with
                     maxDeviation := max s.maxDeviation
                       (workerInfoOf sched w).abs_deviation
                     totalDeviation := s.totalDeviation +
                       (workerInfoOf sched w).abs_deviation }) := by
                simp only [classifyStep, h, if_false, h1, h2, h3, if_true]
              rw [hstep] at hres
              have hmono := (fold_critical_mono sched ws
                { t with critical := t.critical ++ [workerInfoOf sched w] }
                { s with
                  maxDeviation := max s.maxDeviation
                    (workerInfoOf sched w).abs_deviation
                  totalDeviation := s.totalDeviation +
                    (workerInfoOf sched w).abs_deviation }).1
              rw [hres.1] at hmono
              simp at hmono
            · have hstep : classifyStep sched (t, s) w =
                  ({ t with extreme := t.extreme ++ [workerInfoOf sched w] },
                   { s with
                     maxDeviation := max s.maxDeviation
                       (workerInfoOf sched w).abs_deviation
                     totalDeviation := s.totalDeviation +
                       (workerInfoOf sched w).abs_deviation }) := by
                simp only [classifyStep, h, if_false, h1, h2, h3, if_true]
              rw [hstep] at hres
              have hmono := (fold_critical_mono sched ws
                { t with extreme := t.extreme ++ [workerInfoOf sched w] }
                { s with
                  maxDeviation := max s.maxDeviation
                    (workerInfoOf sched w).abs_deviation
                  totalDeviation := s.totalDeviation +
                    (workerInfoOf sched w).abs_deviation }).2
              rw [hres.2] at hmono
              simp at hmono
          · rintro ⟨h3, h4, h5⟩
            exact absurd (h5 w (List.mem_cons_self w ws) h) h2

theorem validate_tiers_eq_fold (sched : Schedule) (ws : List Worker) :
    (validateScheduleBalance sched ws).tiers =
      (ws.foldl (classifyStep sched) (⟨[], [], [], []⟩, ⟨ws.length, 0, 0, 0⟩)).1 :=
  rfl

theorem validate_maxDev_eq_fold (sched : Schedule) (ws : List Worker) :
    (validateScheduleBalance sched ws).stats.maxDeviation =
      (ws.foldl (classifyStep sched)
        (⟨[], [], [], []⟩, ⟨ws.length, 0, 0, 0⟩)).2.maxDeviation := by
  simp only [validateScheduleBalance]
  split <;> rfl

theorem validate_totalDev_eq_fold (sched : Schedule) (ws : List Worker) :
    (validateScheduleBalance sched ws).stats.totalDeviation =
      (ws.foldl (classifyStep sched)
        (⟨[], [], [], []⟩, ⟨ws.length, 0, 0, 0⟩)).2.totalDeviation := by
  simp only [validateScheduleBalance]
  split <;> rfl

end BalVal

namespace BalVal

theorem fold_tiers_nonzero (sched : Schedule) (ws : List Worker) :
    ∀ (t : Tiers) (s : Stats),
      (∀ i, (i ∈ t.withinTolerance ∨ i ∈ t.withinEmergency ∨
          i ∈ t.critical ∨ i ∈ t.extreme) → i.target ≠ 0) →
      ∀ i, (i ∈ (ws.foldl (classifyStep sched) (t, s)).1.withinTolerance ∨
          i ∈ (ws.foldl (classifyStep sched) (t, s)).1.withinEmergency ∨
          i ∈ (ws.foldl (classifyStep sched) (t, s)).1.critical ∨
          i ∈ (ws.foldl (classifyStep sched) (t, s)).1.extreme) →
        i.target ≠ 0 := by
  induction ws with
  | nil => intro t s h; exact h
  | cons w ws ih =>
    intro t s h
    rw [List.foldl_cons]
    by_cases h0 : w.targetOf = 0
    · rw [classifyStep_zero sched (t, s) w h0]
      exact ih t s h
    · have key : ∀ i,
          (i ∈ (classifyStep sched (t, s) w).1.withinTolerance ∨
            i ∈ (classifyStep sched (t, s) w).1.withinEmergency ∨
            i ∈ (classifyStep sched (t, s) w).1.critical ∨
            i ∈ (classifyStep sched (t, s) w).1.extreme) → i.target ≠ 0 := by
        intro i hi
        have hsplit : (i ∈ t.withinTolerance ∨ i ∈ t.withinEmergency ∨
            i ∈ t.critical ∨ i ∈ t.extreme) ∨ i = workerInfoOf sched w := by
          by_cases h1 : (workerInfoOf sched w).abs_deviation ≤ tolerancePercentage
          · simp only [classifyStep, h0, if_false, h1, if_true,
              List.mem_append, List.mem_singleton] at hi
            tauto
          · by_cases h2 :
                (workerInfoOf sched w).abs_deviation ≤ emergencyLimit
            · simp only [classifyStep, h0, if_false, h1, h2, if_true,
                List.mem_append, List.mem_singleton] at hi
              tauto
            · by_cases h3 :
                  (workerInfoOf sched w).abs_deviation ≤ criticalThreshold
              · simp only [classifyStep, h0, if_false, h1, h2, h3, if_true,
                  List.mem_append, List.mem_singleton] at hi
                tauto
              · simp only [classifyStep, h0, if_false, h1, h2, h3,
                  List.mem_append, List.mem_singleton] at hi
                tauto
        rcases hsplit with hs2 | hs2
        · exact h i hs2
        · rw [hs2, workerInfoOf_target]
          exact h0
      exact ih (classifyStep sched (t, s) w).1 (classifyStep sched (t, s) w).2
        key

theorem fold_totalWorkers (sched : Schedule) (ws : List Worker) :
    ∀ (t : Tiers) (s : Stats),
      (ws.foldl (classifyStep sched) (t, s)).2.totalWorkers =
        s.totalWorkers := by
  induction ws with
  | nil => intro t s; rfl
  | cons w ws ih =>
    intro t s
    rw [List.foldl_cons]
    by_cases h0 : w.targetOf = 0
    · rw [classifyStep_zero sched (t, s) w h0]
      exact ih t s
    · rw [ih (classifyStep sched (t, s) w).1 (classifyStep sched (t, s) w).2]
      simp only [classifyStep, h0, if_false]

/-- C10 (counterexample): a worker with no `target_shifts` key does
contribute to the returned deviation statistics: appending it halves
`avg_deviation` (from 10 to 5), because `total_workers` counts skipped
workers while `total_deviation` does not. -/
theorem c10_zero_target_changes_avg :
    (validateScheduleBalance schedC10 [workerA10]).stats.avgDeviation = 10 ∧
    (validateScheduleBalance schedC10 [workerA10, workerZ]).stats.avgDeviation
      = 5 ∧
    ((5 : ℚ) ≠ 10) := by
  refine ⟨?_, ?_, by norm_num⟩ <;>
    · simp +decide [validateScheduleBalance, classifyStep, workerInfoOf,
        countWorkerShifts, cellMatches, Sched.pyStr, Worker.targetOf,
        schedC10, workerA10, workerZ, tolerancePercentage, emergencyLimit,
        criticalThreshold, List.foldl_cons, List.foldl_nil, List.filter_cons,
        List.filter_nil]
      norm_num

/-- C10 (amended): `validate_schedule_balance` silently skips every
worker whose `target_shifts` is 0 or missing: such a worker appears in
no severity tier and contributes nothing to `max_deviation` or
`total_deviation`, but it is counted in `total_workers` and therefore
dilutes `avg_deviation`; `is_balanced` is true exactly when every
worker with a positive target has an absolute deviation of at most the
10% emergency limit. -/
theorem c10_balance_characterization (sched : Schedule) (ws : List Worker) :
    ((validateScheduleBalance sched ws).isBalanced = true ↔
      ∀ w ∈ ws, 0 < w.targetOf →
        (workerInfoOf sched w).abs_deviation ≤ emergencyLimit) ∧
    (∀ i, (i ∈ (validateScheduleBalance sched ws).tiers.withinTolerance ∨
        i ∈ (validateScheduleBalance sched ws).tiers.withinEmergency ∨
        i ∈ (validateScheduleBalance sched ws).tiers.critical ∨
        i ∈ (validateScheduleBalance sched ws).tiers.extreme) →
      i.target ≠ 0) ∧
    ((validateScheduleBalance sched
        (ws.filter (fun w => w.targetOf != 0))).tiers =
      (validateScheduleBalance sched ws).tiers) ∧
    ((validateScheduleBalance sched
        (ws.filter (fun w => w.targetOf != 0))).stats.maxDeviation =
      (validateScheduleBalance sched ws).stats.maxDeviation) ∧
    ((validateScheduleBalance sched
        (ws.filter (fun w => w.targetOf != 0))).stats.totalDeviation =
      (validateScheduleBalance sched ws).stats.totalDeviation) ∧
    (validateScheduleBalance sched ws).stats.totalWorkers = ws.length := by
  have hretotal := foldl_classify_retotal sched ws ⟨[], [], [], []⟩
    ⟨ws.length, 0, 0, 0⟩ (ws.filter (fun w => w.targetOf != 0)).length
  have hinitF : (⟨(ws.filter (fun w => w.targetOf != 0)).length, 0, 0, 0⟩ :
      Stats) =
      { (⟨ws.length, 0, 0, 0⟩ : Stats) with
        totalWorkers := (ws.filter (fun w => w.targetOf != 0)).length } := rfl
  refine ⟨?_, ?_, ?_, ?_, ?_, ?_⟩
  · have hchar := fold_crit_ext_empty sched ws ⟨[], [], [], []⟩
      ⟨ws.length, 0, 0, 0⟩
    simp only [validateScheduleBalance, Bool.and_eq_true, decide_eq_true_eq,
      List.length_eq_zero]
    rw [hchar]
    simp only [true_and]
    constructor
    · intro h3 w hw hpos
      exact h3 w hw (ne_of_gt hpos)
    · intro h3 w hw hnz
      by_cases hpos : 0 < w.targetOf
      · exact h3 w hw hpos
      · rw [workerInfoOf_abs_of_nonpos sched w hpos]
        norm_num [emergencyLimit]
  · intro i hi
    exact fold_tiers_nonzero sched ws ⟨[], [], [], []⟩ ⟨ws.length, 0, 0, 0⟩
      (by
        intro i hi
        rcases hi with hi | hi | hi | hi <;> cases hi)
      i hi
  · rw [validate_tiers_eq_fold, validate_tiers_eq_fold,
      foldl_classify_filter sched ws, hinitF, hretotal]
  · rw [validate_maxDev_eq_fold, validate_maxDev_eq_fold,
      foldl_classify_filter sched ws, hinitF, hretotal]
  · rw [validate_totalDev_eq_fold, validate_totalDev_eq_fold,
      foldl_classify_filter sched ws, hinitF, hretotal]
  · simp only [validateScheduleBalance]
    split
    · exact fold_totalWorkers sched ws _ _
    · exact fold_totalWorkers sched ws _ _

/-- Witness for C10 at a one-worker list whose deviation is exactly the
emergency limit. -/
theorem c10_witness :
    (validateScheduleBalance schedC10 [workerA10]).isBalanced = true :=
  (c10_balance_characterization schedC10 [workerA10]).1.mpr (by
    intro w hw hpos
    rw [List.mem_singleton] at hw
    subst hw
    simp +decide [workerInfoOf, countWorkerShifts, cellMatches, Sched.pyStr,
      Worker.targetOf, schedC10, workerA10, emergencyLimit, List.foldl_cons,
      List.foldl_nil, List.filter_cons, List.filter_nil]
    norm_num)

/-- C5 (counterexample): two concrete inputs where
`check_transfer_validity` disagrees with the claimed rule. First input:
the source improves strictly and the destination lands at 100/9 ≈ 11.1%
deviation — within the claimed ±12% phase-2 ceiling — yet the transfer
is rejected, because the code compares against its 10% emergency limit.
Second input: both workers have zero/missing targets, so both
deviations weakly improve (they stay 0), yet the transfer is rejected,
because the code requires strict improvement. -/
theorem c5_transfer_validity_differs_from_claim :
    ((checkTransferValidity "A" "B" schedC5 workersC5).1 = false ∧
      specTransferValid "A" "B" schedC5 workersC5) ∧
    ((checkTransferValidity "C" "D" [] workersC5z).1 = false ∧
      specTransferValid "C" "D" [] workersC5z) := by
  refine ⟨⟨?_, ?_⟩, ⟨?_, ?_⟩⟩
  · simp +decide [checkTransferValidity, countWorkerShifts, cellMatches,
      Sched.pyStr, Worker.targetOf, devPct, emergencyLimit, schedC5,
      workersC5, List.find?, List.foldl_cons, List.foldl_nil,
      List.filter_cons, List.filter_nil]
    norm_num
  · refine ⟨⟨"A", some 2⟩, ⟨"B", some 9⟩, by decide, by decide, ?_⟩
    simp +decide [countWorkerShifts, cellMatches, Sched.pyStr,
      Worker.targetOf, devPct, schedC5, List.foldl_cons, List.foldl_nil,
      List.filter_cons, List.filter_nil]
    norm_num
  · simp +decide [checkTransferValidity, countWorkerShifts, Worker.targetOf,
      devPct, emergencyLimit, workersC5z, List.find?, List.foldl_nil]
  · refine ⟨⟨"C", some 0⟩, ⟨"D", none⟩, by decide, by decide, ?_⟩
    simp +decide [countWorkerShifts, Worker.targetOf, devPct,
      List.foldl_nil]

/-- C5 (amended): `check_transfer_validity` returns valid exactly when
both workers are found and either both deviations strictly improve, or
one strictly improves while the other's post-transfer deviation stays
within the 10% emergency limit. -/
theorem c5_transfer_validity_characterization (fromId toId : String)
    (schedule : Schedule) (workers : List Worker) :
    (checkTransferValidity fromId toId schedule workers).1 = true ↔
      (∃ fromW toW,
        workers.find? (fun w => w.id = fromId) = some fromW ∧
        workers.find? (fun w => w.id = toId) = some toW ∧
        (let fromAssigned : Int := countWorkerShifts fromId schedule
         let toAssigned : Int := countWorkerShifts toId schedule
         (devPct fromW.targetOf (fromAssigned - 1) <
            devPct fromW.targetOf fromAssigned ∧
          devPct toW.targetOf (toAssigned + 1) <
            devPct toW.targetOf toAssigned) ∨
         (devPct fromW.targetOf (fromAssigned - 1) <
            devPct fromW.targetOf fromAssigned ∧
          devPct toW.targetOf (toAssigned + 1) ≤ emergencyLimit) ∨
         (devPct toW.targetOf (toAssigned + 1) <
            devPct toW.targetOf toAssigned ∧
          devPct fromW.targetOf (fromAssigned - 1) ≤ emergencyLimit))) := by
  unfold checkTransferValidity
  cases hf : workers.find? (fun w => w.id = fromId) with
  | none =>
    simp
  | some fromW =>
    cases ht : workers.find? (fun w => w.id = toId) with
    | none =>
      simp
    | some toW =>
      dsimp only
      constructor
      · intro hlhs
        refine ⟨fromW, toW, rfl, rfl, ?_⟩
        dsimp only
        split_ifs at hlhs with hab hac had
        · exact Or.inl hab
        · exact Or.inr (Or.inl hac)
        · exact Or.inr (Or.inr had)
      · rintro ⟨fw, tw, hfw, htw, hcond⟩
        injection hfw with hfw
        injection htw with htw
        subst hfw
        subst htw
        split_ifs with hab hac had
        · rfl
        · rfl
        · rfl
        · tauto

/-- Witness for C5: a transfer where both deviations strictly improve
is accepted. -/
theorem c5_witness :
    (checkTransferValidity "A" "B"
      [(0, [some "A"]), (1, [some "A"]), (2, [some "A"]), (3, [some "B"]),
       (4, [some "B"]), (5, [some "B"]), (6, [some "B"]), (7, [some "B"]),
       (8, [some "B"]), (9, [some "B"]), (10, [some "B"])]
      [⟨"A", some 2⟩, ⟨"B", some 9⟩]).1 = true :=
  (c5_transfer_validity_characterization "A" "B"
    [(0, [some "A"]), (1, [some "A"]), (2, [some "A"]), (3, [some "B"]),
     (4, [some "B"]), (5, [some "B"]), (6, [some "B"]), (7, [some "B"]),
     (8, [some "B"]), (9, [some "B"]), (10, [some "B"])]
    [⟨"A", some 2⟩, ⟨"B", some 9⟩]).mpr
    ⟨⟨"A", some 2⟩, ⟨"B", some 9⟩, by decide, by decide, by
      simp +decide [countWorkerShifts, cellMatches, Sched.pyStr,
        Worker.targetOf, devPct, List.foldl_cons, List.foldl_nil,
        List.filter_cons, List.filter_nil]
      norm_num⟩

end BalVal

namespace Fill

/-- C8: the random ordering is fully captured by the seed, and the
seed-free policies are deterministic. (1) For every strategy carrying a
seed, `_perform_initial_fill_with_strategy` reseeds the global
generator, so its ordering (and hence the outcome of any deterministic
fill run on that ordering) is independent of the prior generator state.
(2) For every non-random policy, `_get_ordered_workers_list` computes
the ordering from the worker list and current shift counts alone,
ignoring the generator. (3) Every strategy of the closed table whose
seed is `None` has a non-random policy. -/
theorem c8_ordering_determined_by_seed :
    (∀ (st : Strategy) (k : Int), st.seed = some k →
      ∀ (rng1 rng2 : Nat) (workers : List FWorker)
        (shiftCounts : String → Int) (σ : Type)
        (fillRun : List FWorker × Nat → σ),
        performInitialFillOrdering st rng1 workers shiftCounts =
          performInitialFillOrdering st rng2 workers shiftCounts ∧
        fillRun (performInitialFillOrdering st rng1 workers shiftCounts) =
          fillRun (performInitialFillOrdering st rng2 workers shiftCounts)) ∧
    (∀ (ord : OrderType), ord ≠ .random →
      ∀ (rng1 rng2 : Nat) (workers : List FWorker)
        (shiftCounts : String → Int),
        (getOrderedWorkersList ord rng1 workers shiftCounts).1 =
          (getOrderedWorkersList ord rng2 workers shiftCounts).1) ∧
    (∀ n : Nat, (selectDistributionStrategy n).seed = none →
      (selectDistributionStrategy n).workerOrder ≠ .random) := by
  refine ⟨?_, ?_, ?_⟩
  · intro st k hk rng1 rng2 workers shiftCounts σ fillRun
    have h : performInitialFillOrdering st rng1 workers shiftCounts =
        performInitialFillOrdering st rng2 workers shiftCounts := by
      unfold performInitialFillOrdering
      rw [hk]
    exact ⟨h, by rw [h]⟩
  · intro ord h rng1 rng2 workers shiftCounts
    cases ord with
    | random => exact absurd rfl h
    | balanced => rfl
    | sequential => rfl
    | reverse => rfl
    | workload => rfl
    | alternating => rfl
  · intro n h
    unfold selectDistributionStrategy at h ⊢
    have hlt : (n - 1) % 10 < 10 := Nat.mod_lt _ (by norm_num)
    set i := (n - 1) % 10 with hi
    interval_cases i <;> simp [strategyTable] at h ⊢

/-- Witness for C8: attempt 2 selects the `Random Seed A` strategy with
seed 44; two runs from different generator states order identically. -/
theorem c8_witness :
    performInitialFillOrdering (selectDistributionStrategy 2) 0
      [⟨"w1", 1⟩, ⟨"w2", 2⟩] (fun _ => 0) =
    performInitialFillOrdering (selectDistributionStrategy 2) 999
      [⟨"w1", 1⟩, ⟨"w2", 2⟩] (fun _ => 0) :=
  (c8_ordering_determined_by_seed.1 (selectDistributionStrategy 2) 44
    (by decide) 0 999 [⟨"w1", 1⟩, ⟨"w2", 2⟩] (fun _ => 0)
    (List FWorker × Nat) id).1

end Fill

namespace BTrack

/-- C2: checkpoints are not fully deep: `__post_init__` copies six
structures but stores `worker_shift_counts` (and `worker_weekend_counts`,
`last_assignment_date`, `consecutive_shifts`) as references to the
scheduler's own dictionaries. Concretely, after creating a checkpoint
from the live state, the in-place update
`worker_shift_counts["W1"] += 1` on the live scheduler also changes the
structure stored in the checkpoint, while the same kind of in-place
update of the live schedule leaves the checkpoint's (copied) schedule
unchanged — refuting that every stored structure is unaffected by
subsequent mutation. -/
theorem c2_checkpoint_aliases_live_counts :
    getInt (createCheckpoint memC2 refsC2).1
      (createCheckpoint memC2 refsC2).2.workerShiftCounts = [("W1", 1)] ∧
    getInt
      (setSchedCell (setIntKey (createCheckpoint memC2 refsC2).1
        refsC2.workerShiftCounts "W1" 2) refsC2.schedule 0 [none])
      (createCheckpoint memC2 refsC2).2.workerShiftCounts = [("W1", 2)] ∧
    getSched
      (setSchedCell (setIntKey (createCheckpoint memC2 refsC2).1
        refsC2.workerShiftCounts "W1" 2) refsC2.schedule 0 [none])
      refsC2.schedule = [(0, [none])] ∧
    getSched
      (setSchedCell (setIntKey (createCheckpoint memC2 refsC2).1
        refsC2.workerShiftCounts "W1" 2) refsC2.schedule 0 [none])
      (createCheckpoint memC2 refsC2).2.schedule = [(0, [some "W1"])] ∧
    (createCheckpoint memC2 refsC2).2.workerShiftCounts =
      refsC2.workerShiftCounts ∧
    (createCheckpoint memC2 refsC2).2.schedule ≠ refsC2.schedule := by
  decide

end BTrack

namespace IterOpt

theorem c1h1 : deepcopySchedule storeC1 schedC1 =
    ([[some "Worker_B"], [some "Worker_A"], [some "Worker_B"],
      [some "Worker_A"]], [(0, 2), (7, 3)]) := by decide

theorem c1h2 : buildLists violsC1 =
    .ok ([⟨"Worker_B", 2, 1/5, -20⟩], [⟨"Worker_A", 2, 1/5, 20⟩]) := by
  simp [buildLists, violsC1, tolerance]
  norm_num

theorem c1h3 : postName 0 = "Post_0" := by decide

theorem c1h4 : collectWorkerShifts
    [[some "Worker_B"], [some "Worker_A"], [some "Worker_B"],
     [some "Worker_A"]] [(0, 2), (7, 3)] "Worker_A" =
    [(7, "Post_0", 3)] := by decide

theorem c1h5 : canWorkerTakeShift "Worker_B" 7 "Post_0"
    [[some "Worker_B"], [some "Worker_A"], [some "Worker_B"],
     [some "Worker_A"]] [(0, 2), (7, 3)] workersC1 = true := by decide

theorem c1h6 : findBestRecipient
    [[some "Worker_B"], [some "Worker_A"], [some "Worker_B"],
     [some "Worker_A"]] [(0, 2), (7, 3)] workersC1
    [⟨"Worker_B", 2, 1/5, -20⟩] 7 "Post_0" 3 = some "Worker_B" := by
  simp [findBestRecipient, c1h5, derefCells]
  norm_num

theorem c1_eval : redistributeGeneralShifts storeC1 schedC1 violsC1 workersC1 =
    ([[some "Worker_B"], [some "Worker_A"], [some "Worker_B"],
      [some "Worker_B"]], [(0, 2), (7, 3)]) := by
  simp only [redistributeGeneralShifts, c1h1, c1h2]
  simp only [Sched.pySortBy, List.foldl_cons, List.foldl_nil, Sched.pyInsert]
  simp only [generalOuter, generalInner, c1h3, c1h4, c1h6]
  norm_num [Sched.pySortBy, Sched.pyInsert, List.foldl_cons, List.foldl_nil,
    violsC1, derefCells, Sched.findIdxFrom, storeWrite, decFirstShortage]

/-- C1: the redistribution does not confine itself to cells the §4.1
evaluator would allow at level 0. On the concrete failing input the
initial schedule has no 7/14 conflict, `_can_worker_take_shift` approves
giving worker B the cell on day 7 even though B already works day 0
(same weekday, exactly 7 days earlier), and the schedule returned by
`_redistribute_general_shifts` violates the inviolable 7/14 pattern that
`verify_7_14_constraint.py` checks — the simplified checker consults
neither the 7/14 rule, nor gaps, nor incompatibilities. -/
theorem c1_redistribution_breaks_seven_fourteen :
    sevenFourteenViolation storeC1 schedC1 = false ∧
    canWorkerTakeShift "Worker_B" 7 "Post_0" storeC1 schedC1 workersC1 =
      true ∧
    sevenFourteenViolation
      (redistributeGeneralShifts storeC1 schedC1 violsC1 workersC1).1
      (redistributeGeneralShifts storeC1 schedC1 violsC1 workersC1).2 =
      true := by
  refine ⟨by decide, by decide, ?_⟩
  rw [c1_eval]
  decide

end IterOpt

namespace IterOpt

theorem derefCells_append_lt (store : CellStore) (v : List (Option String))
    (r : Nat) (h : r < store.length) :
    derefCells (store ++ [v]) r = derefCells store r := by
  unfold derefCells
  rw [List.getD_eq_getElem?_getD, List.getD_eq_getElem?_getD,
    List.getElem?_append_left h]

theorem derefCells_set_ne (store : CellStore) (r2 : Nat)
    (v : List (Option String)) (r : Nat) (h : r ≠ r2) :
    derefCells (storeWrite store r2 v) r = derefCells store r := by
  unfold derefCells storeWrite
  rw [List.getD_eq_getElem?_getD, List.getD_eq_getElem?_getD,
    List.getElem?_set_ne (fun hq => h hq.symm)]

theorem storeWrite_length (store : CellStore) (r : Nat)
    (v : List (Option String)) :
    (storeWrite store r v).length = store.length := by
  unfold storeWrite
  exact List.length_set store r v

theorem deepcopy_len (sched : ScheduleObj) : ∀ store : CellStore,
    store.length ≤ (deepcopySchedule store sched).1.length := by
  induction sched with
  | nil => intro store; simp [deepcopySchedule]
  | cons e rest ih =>
    intro store
    simp only [deepcopySchedule]
    calc store.length ≤ (store ++ [derefCells store e.2]).length := by
          simp
      _ ≤ _ := ih (store ++ [derefCells store e.2])

theorem deepcopy_frame (sched : ScheduleObj) : ∀ (store : CellStore) (r : Nat),
    r < store.length →
    derefCells (deepcopySchedule store sched).1 r = derefCells store r := by
  induction sched with
  | nil => intro store r _; rfl
  | cons e rest ih =>
    intro store r h
    simp only [deepcopySchedule]
    rw [ih (store ++ [derefCells store e.2]) r (by simp; omega),
      derefCells_append_lt store _ r h]

theorem deepcopy_refs_ge (sched : ScheduleObj) : ∀ store : CellStore,
    ∀ e ∈ (deepcopySchedule store sched).2, store.length ≤ e.2 := by
  induction sched with
  | nil => intro store e he; cases he
  | cons x rest ih =>
    intro store e he
    simp only [deepcopySchedule] at he
    rcases List.mem_cons.mp he with he | he
    · subst he
      exact le_refl _
    · have := ih (store ++ [derefCells store x.2]) e he
      simp at this
      omega

end IterOpt

namespace Sched

theorem mem_pyInsert {α : Type} (keep : α → α → Bool) (x a : α) :
    ∀ xs : List α, a ∈ pyInsert keep x xs → a = x ∨ a ∈ xs := by
  intro xs
  induction xs with
  | nil =>
    intro h
    simp [pyInsert] at h
    exact Or.inl h
  | cons y ys ih =>
    intro h
    simp only [pyInsert] at h
    split at h
    · rcases List.mem_cons.mp h with h | h
      · exact Or.inr (List.mem_cons.mpr (Or.inl h))
      · rcases ih h with h | h
        · exact Or.inl h
        · exact Or.inr (List.mem_cons.mpr (Or.inr h))
    · rcases List.mem_cons.mp h with h | h
      · exact Or.inl h
      · exact Or.inr h

theorem mem_pySortBy_aux {α : Type} (keep : α → α → Bool) (a : α) :
    ∀ (xs : List α) (acc : List α),
      a ∈ xs.foldl (fun acc x => pyInsert keep x acc) acc →
      a ∈ acc ∨ a ∈ xs := by
  intro xs
  induction xs with
  | nil => intro acc h; exact Or.inl h
  | cons x rest ih =>
    intro acc h
    rcases ih (pyInsert keep x acc) h with h | h
    · rcases mem_pyInsert keep x a acc h with h | h
      · exact Or.inr (List.mem_cons.mpr (Or.inl h))
      · exact Or.inl h
    · exact Or.inr (List.mem_cons.mpr (Or.inr h))

theorem mem_pySortBy {α : Type} (keep : α → α → Bool) (a : α) (xs : List α)
    (h : a ∈ pySortBy keep xs) : a ∈ xs := by
  rcases mem_pySortBy_aux keep a xs [] h with h | h
  · cases h
  · exact h

end Sched

namespace IterOpt

theorem collectWorkerShifts_refs (store : CellStore) (name : String)
    (n : Nat) (sched : ScheduleObj) (hs : ∀ e ∈ sched, n ≤ e.2) :
    ∀ t ∈ collectWorkerShifts store sched name, n ≤ t.2.2 := by
  unfold collectWorkerShifts
  have main : ∀ (l : List (Nat × Nat)) (acc : List (Nat × String × Nat)),
      (∀ e ∈ l, n ≤ e.2) → (∀ t ∈ acc, n ≤ t.2.2) →
      ∀ t ∈ l.foldl
        (fun acc e =>
          acc ++ ((Sched.enumFrom 0 (derefCells store e.2)).filterMap
            (fun ci =>
              if ci.2 = some name then some (e.1, postName ci.1, e.2)
              else none))) acc, n ≤ t.2.2 := by
    intro l
    induction l with
    | nil => intro acc _ hacc t ht; exact hacc t ht
    | cons e rest ih =>
      intro acc hl hacc t ht
      refine ih _ (fun x hx => hl x (List.mem_cons_of_mem _ hx)) ?_ t ht
      intro x hx
      rcases List.mem_append.mp hx with hx | hx
      · exact hacc x hx
      · rcases List.mem_filterMap.mp hx with ⟨ci, _, hci⟩
        split at hci
        · injection hci with hci
          subst hci
          exact hl e (List.mem_cons_self e rest)
        · cases hci
  exact main sched [] hs (fun t ht => absurd ht (List.not_mem_nil t))

theorem generalInner_frame (workers : List WorkerData) (sched : ScheduleObj)
    (excessName : String) (str : Int) (n : Nat) :
    ∀ (wshifts : List (Nat × String × Nat)) (st : RedistState) (sr : Int),
      (∀ t ∈ wshifts, n ≤ t.2.2) →
      ∀ r < n,
        derefCells
          (generalInner workers sched excessName str wshifts st sr).store r =
        derefCells st.store r := by
  intro wshifts
  induction wshifts with
  | nil => intro st sr _ r _; rfl
  | cons t rest ih =>
    intro st sr hw r hr
    simp only [generalInner]
    split
    · rfl
    · split
      · exact ih st sr (fun x hx => hw x (List.mem_cons_of_mem _ hx)) r hr
      · split
        · exact ih st sr (fun x hx => hw x (List.mem_cons_of_mem _ hx)) r hr
        · rw [ih _ _ (fun x hx => hw x (List.mem_cons_of_mem _ hx)) r hr]
          exact derefCells_set_ne st.store t.2.2 _ r
            (by
              have := hw t (List.mem_cons_self t rest)
              omega)

theorem generalInner_len (workers : List WorkerData) (sched : ScheduleObj)
    (excessName : String) (str : Int) :
    ∀ (wshifts : List (Nat × String × Nat)) (st : RedistState) (sr : Int),
      (generalInner workers sched excessName str wshifts st sr).store.length =
        st.store.length := by
  intro wshifts
  induction wshifts with
  | nil => intro st sr; rfl
  | cons t rest ih =>
    intro st sr
    simp only [generalInner]
    split
    · rfl
    · split
      · exact ih st sr
      · split
        · exact ih st sr
        · rw [ih _ _]
          exact storeWrite_length st.store t.2.2 _

end IterOpt

namespace IterOpt

theorem generalOuter_frame (workers : List WorkerData) (sched : ScheduleObj)
    (maxR : Nat) (n : Nat) (hs : ∀ e ∈ sched, n ≤ e.2) :
    ∀ (exc : List ExcessInfo) (st : RedistState),
      ∀ r < n,
        derefCells (generalOuter workers sched maxR exc st).store r =
          derefCells st.store r := by
  intro exc
  induction exc with
  | nil => intro st r _; rfl
  | cons e rest ih =>
    intro st r hr
    simp only [generalOuter]
    split
    · rfl
    · rw [ih _ r hr]
      exact generalInner_frame workers sched e.worker (min e.excess 4) n _ st 0
        (fun t ht =>
          collectWorkerShifts_refs st.store e.worker n sched hs t
            (Sched.mem_pySortBy _ t _ ht))
        r hr

theorem generalOuter_len (workers : List WorkerData) (sched : ScheduleObj)
    (maxR : Nat) :
    ∀ (exc : List ExcessInfo) (st : RedistState),
      (generalOuter workers sched maxR exc st).store.length =
        st.store.length := by
  intro exc
  induction exc with
  | nil => intro st; rfl
  | cons e rest ih =>
    intro st
    simp only [generalOuter]
    split
    · rfl
    · rw [ih _]
      exact generalInner_len workers sched e.worker (min e.excess 4) _ st 0

theorem redistributeGeneral_frame (store : CellStore) (sched : ScheduleObj)
    (viols : List Violation) (workers : List WorkerData) :
    ∀ r < store.length,
      derefCells (redistributeGeneralShifts store sched viols workers).1 r =
        derefCells store r := by
  intro r hr
  unfold redistributeGeneralShifts
  cases hb : buildLists viols with
  | error e =>
    exact deepcopy_frame sched store r hr
  | ok lists =>
    rw [generalOuter_frame workers (deepcopySchedule store sched).2
      (min 30 (viols.length * 3)) store.length
      (deepcopy_refs_ge sched store) _ _ r hr]
    exact deepcopy_frame sched store r hr

theorem redistributeGeneral_len (store : CellStore) (sched : ScheduleObj)
    (viols : List Violation) (workers : List WorkerData) :
    store.length ≤
      (redistributeGeneralShifts store sched viols workers).1.length := by
  unfold redistributeGeneralShifts
  cases hb : buildLists viols with
  | error e => exact deepcopy_len sched store
  | ok lists =>
    rw [generalOuter_len]
    exact deepcopy_len sched store

theorem redistributeGeneral_refs (store : CellStore) (sched : ScheduleObj)
    (viols : List Violation) (workers : List WorkerData) (n : Nat)
    (hs : ∀ e ∈ sched, n ≤ e.2) (hn : n ≤ store.length) :
    ∀ e ∈ (redistributeGeneralShifts store sched viols workers).2, n ≤ e.2 := by
  unfold redistributeGeneralShifts
  cases hb : buildLists viols with
  | error e => exact hs
  | ok lists =>
    intro e he
    have := deepcopy_refs_ge sched store e he
    omega

theorem redistributeGeneral_error (store : CellStore) (sched : ScheduleObj)
    (viols : List Violation) (workers : List WorkerData)
    (hb : buildLists viols = .error ()) :
    (redistributeGeneralShifts store sched viols workers).2 = sched := by
  unfold redistributeGeneralShifts
  rw [hb]

theorem weekendInner_frame (workers : List WorkerData) (sched : ScheduleObj)
    (excessName : String) (str maxR : Nat) (n : Nat) :
    ∀ (wshifts : List (Nat × String × Nat)) (st : RedistState) (i : Nat),
      (∀ t ∈ wshifts, n ≤ t.2.2) →
      ∀ r < n,
        derefCells
          (weekendInner workers sched excessName str maxR wshifts st i).store
          r = derefCells st.store r := by
  intro wshifts
  induction wshifts with
  | nil => intro st i _ r _; rfl
  | cons t rest ih =>
    intro st i hw r hr
    simp only [weekendInner]
    split
    · rfl
    · split
      · exact ih st (i + 1) (fun x hx => hw x (List.mem_cons_of_mem _ hx)) r hr
      · split
        · exact ih st (i + 1) (fun x hx => hw x (List.mem_cons_of_mem _ hx))
            r hr
        · rw [ih _ (i + 1) (fun x hx => hw x (List.mem_cons_of_mem _ hx)) r hr]
          exact derefCells_set_ne st.store t.2.2 _ r
            (by
              have := hw t (List.mem_cons_self t rest)
              omega)

theorem weekendOuter_frame (workers : List WorkerData) (sched : ScheduleObj)
    (maxR : Nat) (n : Nat) (hs : ∀ e ∈ sched, n ≤ e.2) :
    ∀ (exc : List ExcessInfo) (st : RedistState),
      ∀ r < n,
        derefCells (weekendOuter workers sched maxR exc st).store r =
          derefCells st.store r := by
  intro exc
  induction exc with
  | nil => intro st r _; rfl
  | cons e rest ih =>
    intro st r hr
    simp only [weekendOuter]
    split
    · rfl
    · rw [ih _ r hr]
      refine weekendInner_frame workers sched e.worker _ maxR n _ st 0
        (fun t ht => ?_) r hr
      refine collectWorkerShifts_refs st.store e.worker n
        (sched.filter (fun p => p.1 % 7 = 5 ∨ p.1 % 7 = 6)) ?_ t ht
      intro x hx
      exact hs x (List.mem_of_mem_filter hx)

theorem weekendOuter_len (workers : List WorkerData) (sched : ScheduleObj)
    (maxR : Nat) :
    ∀ (exc : List ExcessInfo) (st : RedistState),
      (weekendOuter workers sched maxR exc st).store.length =
        st.store.length := by
  intro exc
  induction exc with
  | nil => intro st; rfl
  | cons e rest ih =>
    intro st
    simp only [weekendOuter]
    split
    · rfl
    · rw [ih _]
      have main : ∀ (wshifts : List (Nat × String × Nat)) (st2 : RedistState)
          (i : Nat),
          (weekendInner workers sched e.worker
            (min wshifts.length e.excess.toNat) maxR wshifts st2 i).store.length
            = st2.store.length := by
        intro wshifts
        have gen : ∀ (str : Nat) (ws2 : List (Nat × String × Nat))
            (st2 : RedistState) (i : Nat),
            (weekendInner workers sched e.worker str maxR ws2 st2 i).store.length
              = st2.store.length := by
          intro str ws2
          induction ws2 with
          | nil => intro st2 i; rfl
          | cons t rest2 ih2 =>
            intro st2 i
            simp only [weekendInner]
            split
            · rfl
            · split
              · exact ih2 st2 (i + 1)
              · split
                · exact ih2 st2 (i + 1)
                · rw [ih2 _ (i + 1)]
                  exact storeWrite_length st2.store t.2.2 _
        intro st2 i
        exact gen _ wshifts st2 i
      exact main _ st 0

theorem redistributeWeekend_frame (store : CellStore) (sched : ScheduleObj)
    (viols : List Violation) (workers : List WorkerData) :
    ∀ r < store.length,
      derefCells (redistributeWeekendShifts store sched viols workers).1 r =
        derefCells store r := by
  intro r hr
  unfold redistributeWeekendShifts
  cases hb : buildLists viols with
  | error e => exact deepcopy_frame sched store r hr
  | ok lists =>
    rw [weekendOuter_frame workers (deepcopySchedule store sched).2
      (min 15 (viols.length * 2)) store.length
      (deepcopy_refs_ge sched store) _ _ r hr]
    exact deepcopy_frame sched store r hr

theorem redistributeWeekend_len (store : CellStore) (sched : ScheduleObj)
    (viols : List Violation) (workers : List WorkerData) :
    store.length ≤
      (redistributeWeekendShifts store sched viols workers).1.length := by
  unfold redistributeWeekendShifts
  cases hb : buildLists viols with
  | error e => exact deepcopy_len sched store
  | ok lists =>
    rw [weekendOuter_len]
    exact deepcopy_len sched store

theorem redistributeWeekend_refs (store : CellStore) (sched : ScheduleObj)
    (viols : List Violation) (workers : List WorkerData) (n : Nat)
    (hn : n ≤ store.length) :
    ∀ out, (redistributeWeekendShifts store sched viols workers).2 = .ok out →
      ∀ e ∈ out, n ≤ e.2 := by
  unfold redistributeWeekendShifts
  cases hb : buildLists viols with
  | error e => intro out hout; cases hout
  | ok lists =>
    intro out hout
    injection hout with hout
    subst hout
    intro e he
    have := deepcopy_refs_ge sched store e he
    omega

end IterOpt

namespace IterOpt

theorem applyStrategies_frame (store : CellStore) (sched : ScheduleObj)
    (gv wv : List Violation) (workers : List WorkerData) (it sg : Nat) :
    (∀ r < store.length,
      derefCells
        (applyOptimizationStrategies store sched gv wv workers it sg).1 r =
        derefCells store r) ∧
    (∀ out,
      (applyOptimizationStrategies store sched gv wv workers it sg).2 =
        .ok out →
      ∀ e ∈ out, store.length ≤ e.2) := by
  simp only [applyOptimizationStrategies]
  set c := deepcopySchedule store sched with hcdef
  have hlen1 : store.length ≤ c.1.length := by
    rw [hcdef]; exact deepcopy_len sched store
  have hframe1 : ∀ r < store.length, derefCells c.1 r = derefCells store r := by
    intro r hr; rw [hcdef]; exact deepcopy_frame sched store r hr
  have hrefs1 : ∀ e ∈ c.2, store.length ≤ e.2 := by
    intro e he; rw [hcdef] at he; exact deepcopy_refs_ge sched store e he
  set g := (if gv ≠ [] then redistributeGeneralShifts c.1 c.2 gv workers
    else (c.1, c.2)) with hgdef
  have hlen2 : c.1.length ≤ g.1.length := by
    rw [hgdef]; split_ifs
    · exact redistributeGeneral_len c.1 c.2 gv workers
    · exact le_refl _
  have hframe2 : ∀ r < c.1.length, derefCells g.1 r = derefCells c.1 r := by
    intro r hr; rw [hgdef]; split_ifs
    · exact redistributeGeneral_frame c.1 c.2 gv workers r hr
    · rfl
  have hrefs2 : ∀ e ∈ g.2, store.length ≤ e.2 := by
    intro e he; rw [hgdef] at he; split_ifs at he
    · exact redistributeGeneral_refs c.1 c.2 gv workers store.length hrefs1
        hlen1 e he
    · exact hrefs1 e he
  set w := (if wv ≠ [] then redistributeWeekendShifts g.1 g.2 wv workers
    else (g.1, Except.ok g.2)) with hwdef
  have hlen3 : g.1.length ≤ w.1.length := by
    rw [hwdef]; split_ifs
    · exact redistributeWeekend_len g.1 g.2 wv workers
    · exact le_refl _
  have hframe3 : ∀ r < g.1.length, derefCells w.1 r = derefCells g.1 r := by
    intro r hr; rw [hwdef]; split_ifs
    · exact redistributeWeekend_frame g.1 g.2 wv workers r hr
    · rfl
  have hrefs3 : ∀ out, w.2 = .ok out → ∀ e ∈ out, store.length ≤ e.2 := by
    intro out hout
    rw [hwdef] at hout
    split_ifs at hout
    · exact redistributeWeekend_refs g.1 g.2 wv workers store.length
        (le_trans hlen1 hlen2) out hout
    · injection hout with hout
      subst hout
      exact hrefs2
  have hchain : ∀ r < store.length, derefCells w.1 r = derefCells store r := by
    intro r hr
    rw [hframe3 r (lt_of_lt_of_le hr (le_trans hlen1 hlen2)),
      hframe2 r (lt_of_lt_of_le hr hlen1), hframe1 r hr]
  constructor
  · intro r hr
    cases hw2 : w.2 with
    | error e =>
      simp only [hw2]
      exact hchain r hr
    | ok s2 =>
      simp only [hw2]
      split_ifs with hp
      · simp only [applyRandomPerturbations]
        rw [deepcopy_frame s2 w.1 r
          (lt_of_lt_of_le hr (le_trans (le_trans hlen1 hlen2) hlen3))]
        exact hchain r hr
      · exact hchain r hr
  · intro out hout
    cases hw2 : w.2 with
    | error e =>
      rw [hw2] at hout
      cases hout
    | ok s2 =>
      rw [hw2] at hout
      split_ifs at hout with hp
      · simp only [applyRandomPerturbations] at hout
        cases hout
      · injection hout with hout
        subst hout
        exact hrefs3 s2 hw2

/-- C9: the redistribution strategies never mutate the schedule object
passed to them. For any store in which the schedule's cell references
are valid: (1) `_apply_optimization_strategies` leaves every cell of the
input schedule unchanged; (2) any schedule it returns is built from
freshly allocated cell lists (a new object); (3) and (4)
`_redistribute_general_shifts` and `_redistribute_weekend_shifts` also
leave the input cells unchanged; (5) when the classification inside
`_redistribute_general_shifts` raises, its handler returns the original
input schedule object. -/
theorem c9_strategies_preserve_input_schedule (store : CellStore)
    (sched : ScheduleObj) (gv wv : List Violation)
    (workers : List WorkerData) (it sg : Nat)
    (h : ∀ e ∈ sched, e.2 < store.length) :
    (∀ e ∈ sched,
      derefCells
        (applyOptimizationStrategies store sched gv wv workers it sg).1 e.2 =
        derefCells store e.2) ∧
    (∀ out,
      (applyOptimizationStrategies store sched gv wv workers it sg).2 =
        .ok out →
      ∀ e ∈ out, store.length ≤ e.2) ∧
    (∀ e ∈ sched,
      derefCells (redistributeGeneralShifts store sched gv workers).1 e.2 =
        derefCells store e.2) ∧
    (∀ e ∈ sched,
      derefCells (redistributeWeekendShifts store sched wv workers).1 e.2 =
        derefCells store e.2) ∧
    (buildLists gv = .error () →
      (redistributeGeneralShifts store sched gv workers).2 = sched) := by
  refine ⟨?_, (applyStrategies_frame store sched gv wv workers it sg).2,
    ?_, ?_, redistributeGeneral_error store sched gv workers⟩
  · intro e he
    exact (applyStrategies_frame store sched gv wv workers it sg).1 e.2
      (h e he)
  · intro e he
    exact redistributeGeneral_frame store sched gv workers e.2 (h e he)
  · intro e he
    exact redistributeWeekend_frame store sched wv workers e.2 (h e he)

/-- Witness for C9 at a one-cell store: the input cell is untouched by
the full strategy pass, and the malformed violation makes the general
redistribution return the original schedule object. -/
theorem c9_witness :
    derefCells
      (applyOptimizationStrategies storeC9 schedC9 [violC9] [] [] 0 0).1 0 =
      [some "X"] ∧
    (redistributeGeneralShifts storeC9 schedC9 [violC9] []).2 = schedC9 := by
  have H := c9_strategies_preserve_input_schedule storeC9 schedC9 [violC9] []
    [] 0 0 (by decide)
  exact ⟨(H.1 (0, 0) (by decide)).trans (by decide),
    H.2.2.2.2 rfl⟩

end IterOpt
